import Mathlib

/-!
# AssetManager: the batch-import plugin and the thumbnail generator

A shallow embedding of `src_eagle_plugin/js/import.js` and `thumbnail/others.js`.

* JavaScript strings are Lean strings; the string primitives the code uses
  (`split`, `toLowerCase`, `substring`, `replace`) are written out on the characters.
* Node's `path` module is modelled with the rules of `path.posix` for a platform whose one
  separator is the character `sep` (`path.sep`): `join`, `normalize`, `resolve`,
  `relative`, `dirname`, `extname`. Drive letters and the case folding of `path.win32` are
  not modelled.
* The file system and the host application are answers the code receives. The scan
  of the root reads a tree of `FsNode`s; every other call is a field of `Env`, a
  function of the call's arguments whose answer is a value or a thrown `JsError`. No
  consistency between the tree and those answers is assumed.
* What is thrown is an `Error` with a `message`. The plugin's own display functions
  (`addLog`, `showStatus`, `updateProgress`, the console) are effects that do not throw.
* An `async` function with `try`/`catch` is a `Run`: the effects it performed, in
  order, and how it ended (a value, or the error it threw). A call that never answers has
  no `Run`.
* `checkmainAssetsOthersDirectory` is called by `importMainAssetsFolder` and defined
  nowhere in the source. The call is a field of `Env`, so that what is proved for every
  `Env` holds whatever the name is bound to; the repository as it stands is the case in
  which that field is `checkmainAssetsOthersDirectory` below, the `ReferenceError` of a
  name that resolves to nothing.
-/

namespace AssetManager

/-! ## JavaScript strings -/

/-- The pieces of a character list cut at every `sep`; the empty list gives one empty piece. -/
def splitChars (sep : Char) : List Char → List (List Char)
  | [] => [[]]
  | c :: cs =>
    if c = sep then [] :: splitChars sep cs
    else
      match splitChars sep cs with
      | [] => [[c]]
      | seg :: segs => (c :: seg) :: segs

/-- JavaScript `s.split(sep)` for a one-character separator. -/
def jsSplit (s : String) (sep : Char) : List String :=
  (splitChars sep s.data).map String.mk

/-- JavaScript `parts.join(sep)` for a one-character separator. -/
def jsJoin (sep : Char) : List String → String
  | [] => ""
  | [s] => s
  | s :: rest => s ++ String.singleton sep ++ jsJoin sep rest

/-- JavaScript `s.toLowerCase()`, on the ASCII letters. For the extension test of
`checkThumbnailDirectory` this is all of it: no other character lower-cases to a letter of
`jpg`, `jpeg`, `png`, `gif`, `bmp` or `webp`. -/
def toLowerCase (s : String) : String :=
  String.mk (s.data.map Char.toLower)

/-- JavaScript `s.substring(n)`. -/
def substring (s : String) (n : Nat) : String :=
  String.mk (s.data.drop n)

/-- JavaScript `s.replace(/c/g, by)`: every occurrence of the character `c` becomes `by`. -/
def replaceAll (s : String) (c : Char) (by_ : String) : String :=
  String.mk (s.data.flatMap fun d => if d = c then by_.data else [d])

/-! ## Node's `path` module -/

/-- One step of `normalizeString`: the segments kept so far (last one first) and the next segment. -/
def normStep (allowAboveRoot : Bool) (stack : List String) (seg : String) : List String :=
  if seg = "" ∨ seg = "." then stack
  else if seg = ".." then
    match stack with
    | [] => if allowAboveRoot then [".."] else []
    | top :: rest =>
      if top = ".." then (if allowAboveRoot then ".." :: stack else stack) else rest
  else seg :: stack

/-- Node's `normalizeString`, on the segments of the path: empty and `.` segments go,
`..` removes the segment before it (or is kept, when allowed, if there is none). -/
def normalizeString (allowAboveRoot : Bool) (segs : List String) : List String :=
  (segs.foldl (normStep allowAboveRoot) []).reverse

/-- A name a directory entry can have: not empty, without the separator, and neither `.`
nor `..`. -/
def ValidName (sep : Char) (s : String) : Prop :=
  s ≠ "" ∧ sep ∉ s.data ∧ s ≠ "." ∧ s ≠ ".."

/-- Node's `path.isAbsolute`. -/
def isAbsolute (sep : Char) (p : String) : Bool :=
  p.data.head? = some sep

/-- Node's `path.normalize`. -/
def pathNormalize (sep : Char) (p : String) : String :=
  if p = "" then "."
  else
    let absolute := isAbsolute sep p
    let trailingSeparator := p.data.getLast? = some sep
    let path := jsJoin sep (normalizeString (!absolute) (jsSplit p sep))
    if path = "" then
      if absolute then String.singleton sep
      else if trailingSeparator then "." ++ String.singleton sep else "."
    else
      let path := if trailingSeparator then path ++ String.singleton sep else path
      if absolute then String.singleton sep ++ path else path

/-- Node's `path.join(a, b)`. -/
def pathJoin (sep : Char) (a b : String) : String :=
  if a = "" then (if b = "" then "." else pathNormalize sep b)
  else if b = "" then pathNormalize sep a
  else pathNormalize sep (a ++ String.singleton sep ++ b)

/-- Node's `path.join` of any number of parts. -/
def pathJoinAll (sep : Char) (parts : List String) : String :=
  match parts.filter (fun part => part ≠ "") with
  | [] => "."
  | kept => pathNormalize sep (jsJoin sep kept)

/-- The segments of `path.resolve(p)` below the root, `cwd` being the working directory. -/
def resolveSegs (sep : Char) (cwd p : String) : List String :=
  normalizeString false
    (jsSplit (if isAbsolute sep p then p else cwd ++ String.singleton sep ++ p) sep)

/-- Node's `path.resolve(cwd, p)` for an absolute `cwd`. -/
def pathResolve (sep : Char) (cwd p : String) : String :=
  String.singleton sep ++ jsJoin sep (resolveSegs sep cwd p)

/-- What is left of two segment lists once their common beginning is removed. -/
def dropCommon : List String → List String → List String × List String
  | a :: as, b :: bs => if a = b then dropCommon as bs else (a :: as, b :: bs)
  | as, bs => (as, bs)

/-- Node's `path.relative(from, to)`: one `..` for every segment of `from` that `to`
does not share, then the segments of `to` that `from` does not share. -/
def pathRelative (sep : Char) (cwd fromPath toPath : String) : String :=
  if fromPath = toPath then ""
  else
    let rest := dropCommon (resolveSegs sep cwd fromPath) (resolveSegs sep cwd toPath)
    jsJoin sep (List.replicate rest.1.length ".." ++ rest.2)

/-- Node's `path.dirname`. -/
def pathDirname (sep : Char) (p : String) : String :=
  match p.data with
  | [] => "."
  | c :: cs =>
    let afterTrailing := cs.reverse.dropWhile (fun d => d = sep)
    match afterTrailing.dropWhile (fun d => d ≠ sep) with
    | [] => if c = sep then String.singleton sep else "."
    | _ :: before =>
      if c = sep ∧ before = [] then String.mk [sep, sep]
      else String.mk (c :: before.reverse)

/-- The last component of a path, trailing separators dropped. -/
def lastComponent (sep : Char) (p : String) : List Char :=
  ((p.data.reverse.dropWhile (fun d => d = sep)).takeWhile (fun d => d ≠ sep)).reverse

/-- Node's `path.extname`: from the last dot of the last component to its end; empty
when there is no dot, when the dot is the component's first character, and for `..`. -/
def pathExtname (sep : Char) (p : String) : String :=
  let component := lastComponent sep p
  let ext := (component.reverse.takeWhile (fun d => d ≠ '.')).reverse
  if ext.length = component.length then ""
  else
    let stem := component.take (component.length - ext.length - 1)
    if stem = [] then ""
    else if ext = [] ∧ stem = ['.'] then ""
    else String.mk ('.' :: ext)

/-! ## Effects and errors -/

/-- A thrown JavaScript `Error`; the handlers of the code read its `message`. -/
structure JsError where
  message : String
deriving DecidableEq, Repr

/-- What the code does to the outside world, as far as the outside can see it. -/
inductive Event where
  | addLog (message type : String)
  | consoleError (message : String)
  | consoleLog (message : String)
  | showStatus (message type : String)
  | clearLog
  | showProgress
  | hideProgress
  | updateProgress (current total : Nat)
  | setDisabled (elementId : String) (disabled : Bool)
  | addFromPath (path name : String) (tags folders : List String)
  | setTimeout (ms : Nat)
  | getById (itemId : String)
  | setCustomThumbnail (itemId path : String)
  | mkdirSync (path : String)
  | copyFileSync (src dest : String)
  | exec (command : String)
deriving DecidableEq, Repr

/-- A finished run of a piece of code: the effects in the order they happened, and either
the value returned or the error thrown. -/
structure Run (α : Type) where
  events : List Event
  result : Except JsError α

namespace Run

/-- Sequencing: the second part runs only when the first returned. -/
def andThen {α β : Type} (m : Run α) (f : α → Run β) : Run β :=
  match m.result with
  | .ok a => ⟨m.events ++ (f a).events, (f a).result⟩
  | .error e => ⟨m.events, .error e⟩

instance : Monad Run where
  pure a := ⟨[], .ok a⟩
  bind := andThen

/-- One effect that cannot fail. -/
def emit (e : Event) : Run Unit := ⟨[e], .ok ()⟩

/-- A call to the outside: the call is made, and its answer is returned or thrown. -/
def call {α : Type} (e : Event) (answer : Except JsError α) : Run α := ⟨[e], answer⟩

/-- A read of the outside, with no effect of its own. -/
def ask {α : Type} (answer : Except JsError α) : Run α := ⟨[], answer⟩

/-- JavaScript `throw`. -/
def throw {α : Type} (e : JsError) : Run α := ⟨[], .error e⟩

/-- JavaScript `try { body } catch (error) { handler }`. -/
def tryCatch {α : Type} (body : Run α) (handler : JsError → Run α) : Run α :=
  match body.result with
  | .ok _ => body
  | .error e => ⟨body.events ++ (handler e).events, (handler e).result⟩

/-- JavaScript `try { body } finally { finalizer }`, the finalizer returning nothing. -/
def tryFinally {α : Type} (body : Run α) (finalizer : Run Unit) : Run α :=
  match finalizer.result with
  | .ok _ => ⟨body.events ++ finalizer.events, body.result⟩
  | .error e => ⟨body.events ++ finalizer.events, .error e⟩

end Run

open Run

/-- The plugin's `addLog(message, type)`. -/
def addLog (message : String) (type : String) : Run Unit := emit (.addLog message type)

/-- The plugin's `showStatus(message, type)`. -/
def showStatus (message : String) (type : String) : Run Unit := emit (.showStatus message type)

/-- The plugin's `updateProgress(current, total)`. -/
def updateProgress (current total : Nat) : Run Unit := emit (.updateProgress current total)

/-! ## The outside world -/

/-- The library record of an imported item. -/
structure Item where
  id : String
  name : String
deriving DecidableEq, Repr

/-- The shape `checkThumbnailDirectory` returns, and the call site of
`checkmainAssetsOthersDirectory` reads: `{ exists, path, files }`, `path` being `null`
when there is no directory. -/
structure DirInfo where
  exists_ : Bool
  path : Option String
  files : List String
deriving DecidableEq, Repr

/-- What the file system holds at one path during the scan: `isDirectory` is the answer of
`fs.statSync(path).isDirectory()` and `entries` the answer of `fs.readdirSync(path)` with
what each name holds; `none` is a call that throws. -/
inductive FsNode where
  | mk (isDirectory : Option Bool) (entries : Option (List (String × FsNode)))

/-- The answer of `fs.statSync(path).isDirectory()`. -/
def FsNode.isDirectory : FsNode → Option Bool
  | .mk d _ => d

/-- Everything outside the plugin's own code. Each function field is one call and its
answer for the given arguments. -/
structure Env where
  /-- Node's `path.sep`. -/
  sep : Char
  /-- Node's `process.cwd()`. -/
  cwd : String
  /-- What the scan of the selected root finds there. -/
  tree : FsNode
  existsSync : String → Bool
  readdirSync : String → Except JsError (List String)
  /-- The answer of `fs.statSync(path).isDirectory()`. -/
  statSync : String → Except JsError Bool
  mkdirSync : String → Except JsError Unit
  copyFileSync : String → String → Except JsError Unit
  /-- The host call `eagle.item.addFromPath(path, { name, tags, folders })`. -/
  addFromPath : String → String → List String → List String → Except JsError String
  /-- The host call `eagle.item.getById(itemId)`. -/
  getById : String → Except JsError Item
  /-- The host call `item.setCustomThumbnail(path)`. -/
  setCustomThumbnail : Item → String → Except JsError Unit
  /-- The host value `eagle.library.path`. -/
  libraryPath : String
  /-- What `getUserFolders()` reads from the form. -/
  userFolders : List String
  /-- What the call `checkmainAssetsOthersDirectory(mainAssetsPath)` evaluates to: any
  answer, or a throw. The source defines no such function, see
  `checkmainAssetsOthersDirectory` below the structure. -/
  checkmainAssetsOthersDirectory : String → Except JsError DirInfo
  /-- Whether `child_process.exec(command, callback)` throws when called. -/
  exec : String → Except JsError Unit

/-- Source: the name `checkmainAssetsOthersDirectory` at import.js:282. No file of the
repository declares it (the comment on line 280 says the function is still to be written),
so evaluating the call throws the `ReferenceError` of an unresolvable name, whatever the
argument. -/
def checkmainAssetsOthersDirectory (_mainAssetsPath : String) : Except JsError DirInfo :=
  .error ⟨"checkmainAssetsOthersDirectory is not defined"⟩

/-- The plugin's two global variables. -/
structure Globals where
  selectedPath : String
  isImporting : Bool
deriving DecidableEq, Repr

/-! ## `import.js` -/

/-- Source: `checkPathExists`. `fs.existsSync` does not throw. -/
def checkPathExists (env : Env) (path : String) : Bool :=
  env.existsSync path

/-- The loop of `getFiles`: the names whose `statSync` says they are not directories. -/
def getFilesLoop (env : Env) (dirPath : String) : List String → List String → Run (List String)
  | [], files => pure files
  | item :: rest, files => do
    let fullPath := pathJoin env.sep dirPath item
    let isDirectory ← ask (env.statSync fullPath)
    getFilesLoop env dirPath rest (if !isDirectory then files ++ [item] else files)

/-- Source: `getFiles`. Any failure of the listing or of one `statSync` gives `[]`. -/
def getFiles (env : Env) (dirPath : String) : Run (List String) :=
  tryCatch
    (do
      let items ← ask (env.readdirSync dirPath)
      getFilesLoop env dirPath items [])
    (fun _ => do
      emit (.consoleError "读取文件失败:")
      pure [])

/-- The state of one scan: the array `mainAssetsFolders` and the console lines written. -/
structure ScanState where
  mainAssetsFolders : List String
  console : List Event
deriving DecidableEq, Repr

mutual
/-- Source: `searchRecursively(currentPath)`, the node being what the file system holds at
`currentPath`. The whole body is inside `try`, so it always returns. -/
def searchRecursively (sep : Char) : FsNode → String → ScanState → ScanState
  | .mk _ none, currentPath, st =>
    { st with console := st.console ++ [.consoleError ("搜索目录失败: " ++ currentPath)] }
  | .mk _ (some items), currentPath, st =>
    match searchItems sep items currentPath st with
    | (st1, false) => st1
    | (st1, true) =>
      { st1 with console := st1.console ++ [.consoleError ("搜索目录失败: " ++ currentPath)] }
/-- The `for (const item of items)` loop of `searchRecursively`: the state it reached, and
whether a `statSync` threw and ended it. -/
def searchItems (sep : Char) : List (String × FsNode) → String → ScanState → ScanState × Bool
  | [], _, st => (st, false)
  | (item, node) :: rest, currentPath, st =>
    match node.isDirectory with
    | none => (st, true)
    | some true =>
      if item = "main_assets" then
        searchItems sep rest currentPath
          { st with mainAssetsFolders :=
              st.mainAssetsFolders ++ [pathJoin sep currentPath item] }
      else
        searchItems sep rest currentPath
          (searchRecursively sep node (pathJoin sep currentPath item) st)
    | some false => searchItems sep rest currentPath st
end

/-- Source: `findMainAssetsFolders(rootPath)`. -/
def findMainAssetsFolders (sep : Char) (tree : FsNode) (rootPath : String) : Run (List String) :=
  let st := searchRecursively sep tree rootPath ⟨[], []⟩
  ⟨st.console, .ok st.mainAssetsFolders⟩

/-- The test of the `filter` in `generateTagsFromPath`: `part && part !== "main_assets"`. -/
def isTagPart (part : String) : Bool :=
  part ≠ "" && part ≠ "main_assets"

/-- Source: `generateTagsFromPath(filePath)`, reading the global `selectedPath`. -/
def generateTagsFromPath (sep : Char) (cwd selectedPath filePath : String) : List String :=
  let relativePath := pathRelative sep cwd selectedPath filePath
  let pathParts := jsSplit relativePath sep
  pathParts.filter isTagPart

/-- The extensions `checkThumbnailDirectory` accepts. -/
def imageExtensions : List String := ["jpg", "jpeg", "png", "gif", "bmp", "webp"]

/-- The test of the `filter` in `checkThumbnailDirectory`. -/
def isImageFile (sep : Char) (file : String) : Bool :=
  let ext := substring (toLowerCase (pathExtname sep file)) 1
  imageExtensions.contains ext

/-- Source: `checkThumbnailDirectory(mainAssetsPath)`. -/
def checkThumbnailDirectory (env : Env) (mainAssetsPath : String) : Run DirInfo :=
  let parentDir := pathDirname env.sep mainAssetsPath
  let thumbnailPath := pathJoin env.sep parentDir "thumbnail"
  tryCatch
    (if !env.existsSync thumbnailPath then
      pure { exists_ := false, path := none, files := [] }
    else do
      let files ← getFiles env thumbnailPath
      let imageFiles := files.filter (isImageFile env.sep)
      pure { exists_ := true, path := some thumbnailPath, files := imageFiles })
    (fun _ => do
      emit (.consoleError "检查thumbnail目录失败:")
      pure { exists_ := false, path := none, files := [] })

/-- Node's `path.join(a, b)` when `a` may be `null`: then it throws a `TypeError`. -/
def pathJoinNullable (sep : Char) (a : Option String) (b : String) : Run String :=
  match a with
  | some a => pure (pathJoin sep a b)
  | none => throw ⟨"The \"path\" argument must be of type string. Received null"⟩

/-- The copy loop of `importMainAssetsFolder` over `mainAssetsOthersInfo.files`. -/
def copyOthersLoop (env : Env) (srcDir : Option String) (destPath : String) :
    List String → Run Unit
  | [] => pure ()
  | file :: rest => do
    let srcFile ← pathJoinNullable env.sep srcDir file
    let destFile := pathJoin env.sep destPath file
    call (.copyFileSync srcFile destFile) (env.copyFileSync srcFile destFile)
    addLog ("复制 main_assets_others 文件: " ++ file) "info"
    copyOthersLoop env srcDir destPath rest

/-- The PowerShell text of the cleanup step for `parentFolder`. -/
def psCommand (parentFolder : String) : String :=
  "\nAdd-Type -AssemblyName Microsoft.VisualBasic;\n[Microsoft.VisualBasic.FileIO.FileSystem]::DeleteDirectory(\n    '"
    ++ replaceAll parentFolder (Char.ofNat 39) "''"
    ++ "',\n    [Microsoft.VisualBasic.FileIO.UIOption]::OnlyErrorDialogs,\n    [Microsoft.VisualBasic.FileIO.RecycleOption]::SendToRecycleBin\n)\n"

/-- The command line handed to `exec` by the cleanup step. -/
def cleanupCommand (parentFolder : String) : String :=
  "pwsh -NoProfile -Command \""
    ++ replaceAll (replaceAll (psCommand parentFolder) '\n' " ") '"' "\\\""
    ++ "\""

/-- The cleanup step of `importMainAssetsFolder`: its `try` issues the command; its
`catch` reads `parentFolder`, a `const` of the `try` block that is out of scope there, so
the handler itself throws a `ReferenceError` before it logs anything. The callback of
`exec` runs later and only writes to the console. -/
def cleanupStep (env : Env) (mainAssetsPath : String) : Run Unit :=
  tryCatch
    (do
      let parentFolder := pathDirname env.sep mainAssetsPath
      call (.exec (cleanupCommand parentFolder)) (env.exec (cleanupCommand parentFolder))
      emit (.consoleLog ("已删除源文件夹: " ++ parentFolder)))
    (fun _ => throw ⟨"parentFolder is not defined"⟩)

/-- The thumbnail step of `importMainAssetsFolder`: the value of `thumbnailSetSuccess`. -/
def thumbnailStep (env : Env) (thumbnailInfo : DirInfo) (importedItem : Item) : Run Bool :=
  if thumbnailInfo.exists_ && thumbnailInfo.files.length > 0 then do
    let thumbnailFile := thumbnailInfo.files.headD ""
    let thumbnailFilePath ← pathJoinNullable env.sep thumbnailInfo.path thumbnailFile
    tryCatch
      (do
        call (.setCustomThumbnail importedItem.id thumbnailFilePath)
          (env.setCustomThumbnail importedItem thumbnailFilePath)
        addLog ("设置缩略图: " ++ thumbnailFile) "info"
        pure true)
      (fun error => do
        addLog ("设置缩略图失败: " ++ error.message) "error"
        pure false)
  else pure true

/-- The auxiliary copy step of `importMainAssetsFolder`: the value of
`mainAssetsOthersCopySuccess`. -/
def othersStep (env : Env) (mainAssetsPath : String) (importedItem : Item) : Run Bool := do
  let mainAssetsOthersInfo ← ask (env.checkmainAssetsOthersDirectory mainAssetsPath)
  if mainAssetsOthersInfo.exists_ && mainAssetsOthersInfo.files.length > 0 then
    let destPath := pathJoinAll env.sep [env.libraryPath, "images", importedItem.id ++ ".info"]
    tryCatch
      (do
        if !env.existsSync destPath then
          call (.mkdirSync destPath) (env.mkdirSync destPath)
        copyOthersLoop env mainAssetsOthersInfo.path destPath mainAssetsOthersInfo.files
        pure true)
      (fun error => do
        addLog ("复制 main_assets_others 文件失败: " ++ error.message) "error"
        pure false)
  else pure true

/-- Source: the `try` block of `importMainAssetsFolder`. -/
def importBody (env : Env) (selectedPath mainAssetsPath : String)
    (index total : Nat) : Run Unit := do
  addLog ("处理: " ++ mainAssetsPath) "info"
  let files ← getFiles env mainAssetsPath
  if files.length = 0 then
    addLog ("警告: " ++ mainAssetsPath ++ " 目录为空") "warning"
  else if files.length > 1 then
    addLog ("警告: " ++ mainAssetsPath ++ " 目录包含多个文件!") "warning"
  else do
    let assetFile := files.headD ""
    let assetFilePath := pathJoin env.sep mainAssetsPath assetFile
    let tags := generateTagsFromPath env.sep env.cwd selectedPath mainAssetsPath
    let thumbnailInfo ← checkThumbnailDirectory env mainAssetsPath
    let tags :=
      if !thumbnailInfo.exists_ || thumbnailInfo.files.length = 0 then
        tags ++ ["no_thumbnail"]
      else tags
    addLog ("导入文件: " ++ assetFile) "info"
    addLog ("标签: " ++ ", ".intercalate tags) "info"
    let userFolders := env.userFolders
    let itemId ← call (.addFromPath assetFilePath assetFile tags userFolders)
      (env.addFromPath assetFilePath assetFile tags userFolders)
    emit (.setTimeout 100)
    let importedItem ← call (.getById itemId) (env.getById itemId)
    addLog ("成功导入: " ++ importedItem.name ++ " (ID: " ++ importedItem.id ++ ")") "info"
    let thumbnailSetSuccess ← thumbnailStep env thumbnailInfo importedItem
    let mainAssetsOthersCopySuccess ← othersStep env mainAssetsPath importedItem
    if thumbnailSetSuccess && mainAssetsOthersCopySuccess then
      cleanupStep env mainAssetsPath
    else
      addLog "跳过删除源文件夹：缩略图或main_assets_others复制失败" "warning"
    updateProgress (index + 1) total

/-- Source: `importMainAssetsFolder(mainAssetsPath, index, total)`, reading the global
`selectedPath`: the `try` block and its `catch`. -/
def importMainAssetsFolder (env : Env) (selectedPath mainAssetsPath : String)
    (index total : Nat) : Run Unit :=
  tryCatch (importBody env selectedPath mainAssetsPath index total)
    (fun error => do
      addLog ("导入失败: " ++ mainAssetsPath ++ " - " ++ error.message) "error"
      emit (.consoleError "导入失败:"))

/-- The `for` loop of `startBatchImport`, from index `i` on. -/
def importLoop (env : Env) (selectedPath : String) (total : Nat) :
    List String → Nat → Run Unit
  | [], _ => pure ()
  | folder :: rest, i => do
    importMainAssetsFolder env selectedPath folder i total
    importLoop env selectedPath total rest (i + 1)

/-- The `try` block of `startBatchImport`. -/
def startBatchImportBody (env : Env) (selectedPath : String) : Run Unit := do
  showStatus "正在搜索main_assets文件夹..." "info"
  emit .clearLog
  emit .showProgress
  let mainAssetsFolders ← findMainAssetsFolders env.sep env.tree selectedPath
  if mainAssetsFolders.length = 0 then
    showStatus "未找到任何main_assets文件夹" "error"
  else do
    showStatus
      ("找到 " ++ toString mainAssetsFolders.length ++ " 个main_assets文件夹，开始导入...") "info"
    addLog ("开始批量导入，共 " ++ toString mainAssetsFolders.length ++ " 个文件夹") "info"
    importLoop env selectedPath mainAssetsFolders.length mainAssetsFolders 0
    showStatus ("批量导入完成！共处理 " ++ toString mainAssetsFolders.length ++ " 个文件夹")
      "success"
    addLog "批量导入完成！" "info"

/-- Source: `startBatchImport()`: the run, and the globals it leaves. -/
def startBatchImport (env : Env) (g : Globals) : Run Globals :=
  if g.isImporting then pure g
  else if g.selectedPath = "" then do
    showStatus "请先选择根目录路径" "error"
    pure g
  else if !checkPathExists env g.selectedPath then do
    showStatus "选择的路径不存在" "error"
    pure g
  else do
    emit (.setDisabled "startImportBtn" true)
    emit (.setDisabled "selectPathBtn" true)
    tryFinally
      (tryCatch (startBatchImportBody env g.selectedPath)
        (fun error => do
          showStatus ("导入过程中发生错误: " ++ error.message) "error"
          addLog ("错误: " ++ error.message) "info"
          emit (.consoleError "批量导入失败:")))
      (do
        emit (.setDisabled "startImportBtn" false)
        emit (.setDisabled "selectPathBtn" false)
        emit .hideProgress)
    pure { g with isImporting := false }

/-! ## The tree under the root, in the words of the spec -/

mutual
/-- Every entry below a node, at any depth, in depth-first listing order: the names that
lead from the node to the entry, and what the entry holds. -/
def FsNode.descendants : FsNode → List (List String × FsNode)
  | .mk _ none => []
  | .mk _ (some items) => descendantsOfItems items
/-- Every entry of a listing and below it, in depth-first listing order. -/
def descendantsOfItems : List (String × FsNode) → List (List String × FsNode)
  | [] => []
  | (name, node) :: rest =>
    ([name], node) :: (node.descendants.map fun entry => (name :: entry.1, entry.2))
      ++ descendantsOfItems rest
end

mutual
/-- A fully readable entry: its `statSync` succeeds; a directory can be listed and all its
entries are fully readable; a file cannot be listed. -/
def FsNode.readable : FsNode → Bool
  | .mk (some true) (some items) => readableItems items
  | .mk (some false) none => true
  | _ => false
/-- A listing whose entries are all fully readable. -/
def readableItems : List (String × FsNode) → Bool
  | [] => true
  | (_, node) :: rest => node.readable && readableItems rest
end

/-- A fully readable tree under a root: the root can be listed and all its entries are
fully readable. -/
def FsNode.readableRoot : FsNode → Bool
  | .mk _ (some items) => readableItems items
  | .mk _ none => false

/-- An entry the scan is to collect: a directory whose name is exactly `main_assets` and
that is reached without passing through another `main_assets`. -/
def isMarker (entry : List String × FsNode) : Bool :=
  entry.2.isDirectory = some true && entry.1.getLast? = some "main_assets" &&
    !entry.1.dropLast.contains "main_assets"

/-- The full paths of the entries of `entries` to collect, the names being joined onto
`rootPath`. -/
def markerPaths (sep : Char) (rootPath : String) (entries : List (List String × FsNode)) :
    List String :=
  (entries.filter isMarker).map fun entry => entry.1.foldl (pathJoin sep) rootPath

/-- The spec's result of the scan: the full paths of the directories named `main_assets`
below the root that are reached without passing through another one, in depth-first
listing order. -/
def markerDirectories (sep : Char) (tree : FsNode) (rootPath : String) : List String :=
  markerPaths sep rootPath tree.descendants

/-! ## The outcome of one bundle, read off the answers of the outside -/

/-- Whether a call returned rather than threw. -/
def succeeded {α : Type} : Except JsError α → Bool
  | .ok _ => true
  | .error _ => false

/-- The value a run returned, if it returned. -/
def Run.value? {α : Type} (m : Run α) : Option α :=
  match m.result with
  | .ok a => some a
  | .error _ => none

/-- The commands handed to `exec` in a list of effects, in order. -/
def execCommands (events : List Event) : List String :=
  events.filterMap fun e =>
    match e with
    | .exec command => some command
    | _ => none

/-- The progress reports `(current, total)` in a list of effects, in order. -/
def progressReports (events : List Event) : List (Nat × Nat) :=
  events.filterMap fun e =>
    match e with
    | .updateProgress current total => some (current, total)
    | _ => none

/-- The tag lists handed to the host's `addFromPath` in a list of effects, in order. -/
def importedTags (events : List Event) : List (List String) :=
  events.filterMap fun e =>
    match e with
    | .addFromPath _ _ tags _ => some tags
    | _ => none

/-- A list of effects with no `exec`, no progress report and no `addFromPath` in it. -/
def Silent (events : List Event) : Prop :=
  execCommands events = [] ∧ progressReports events = [] ∧ importedTags events = []

/-- The payload files of a bundle: what `getFiles` finds in its directory. -/
def payloadFiles (env : Env) (mainAssetsPath : String) : List String :=
  ((getFiles env mainAssetsPath).value?).getD []

/-- The sibling thumbnail directory of a bundle. -/
def thumbnailDir (env : Env) (mainAssetsPath : String) : String :=
  pathJoin env.sep (pathDirname env.sep mainAssetsPath) "thumbnail"

/-- The usable thumbnail files of a bundle: what `checkThumbnailDirectory` reports. -/
def thumbnailFiles (env : Env) (mainAssetsPath : String) : List String :=
  (((checkThumbnailDirectory env mainAssetsPath).value?).getD ⟨false, none, []⟩).files

/-- The tags of a bundle: those of its path, and `no_thumbnail` when it has no usable
thumbnail file. -/
def bundleTags (env : Env) (selectedPath mainAssetsPath : String) : List String :=
  generateTagsFromPath env.sep env.cwd selectedPath mainAssetsPath
    ++ (if thumbnailFiles env mainAssetsPath = [] then ["no_thumbnail"] else [])

/-- The spec's `imported`: the item the host created, when the bundle holds exactly one
file and both `addFromPath` and `getById` succeeded. -/
def importedItem (env : Env) (selectedPath mainAssetsPath : String) : Option Item :=
  match payloadFiles env mainAssetsPath with
  | [assetFile] =>
    match env.addFromPath (pathJoin env.sep mainAssetsPath assetFile) assetFile
        (bundleTags env selectedPath mainAssetsPath) env.userFolders with
    | .ok itemId =>
      match env.getById itemId with
      | .ok item => some item
      | .error _ => none
    | .error _ => none
  | _ => none

/-- The spec's `thumbnailSet`: no thumbnail step was required (the bundle has no usable
thumbnail file), or attaching the first file succeeded. -/
def thumbnailSet (env : Env) (mainAssetsPath : String) (item : Item) : Bool :=
  match thumbnailFiles env mainAssetsPath with
  | [] => true
  | thumbnailFile :: _ =>
    succeeded
      (env.setCustomThumbnail item (pathJoin env.sep (thumbnailDir env mainAssetsPath) thumbnailFile))

/-- Whether every one of `files` is copied from `srcDir` to `destPath`; with no source
directory nothing can be. -/
def allCopied (env : Env) (srcDir : Option String) (destPath : String) (files : List String) :
    Bool :=
  match srcDir with
  | none => false
  | some srcDir =>
    files.all fun file =>
      succeeded (env.copyFileSync (pathJoin env.sep srcDir file) (pathJoin env.sep destPath file))

/-- Whether copying the auxiliary files reported by `info` into the item's folder succeeds:
the folder exists or is created, and every file is copied. -/
def copySucceeds (env : Env) (info : DirInfo) (item : Item) : Bool :=
  let destPath := pathJoinAll env.sep [env.libraryPath, "images", item.id ++ ".info"]
  (env.existsSync destPath || succeeded (env.mkdirSync destPath)) &&
    allCopied env info.path destPath info.files

/-- The spec's `auxiliaryCopied`: the auxiliary directory was looked up, and no copy was
required (no directory, or no file in it) or the copy succeeded. -/
def auxiliaryCopied (env : Env) (mainAssetsPath : String) (item : Item) : Bool :=
  match env.checkmainAssetsOthersDirectory mainAssetsPath with
  | .error _ => false
  | .ok info => !(info.exists_ && info.files.length > 0) || copySucceeds env info item

/-- The cleanup command for a bundle: the one that deletes its parent directory. -/
def bundleCleanup (env : Env) (mainAssetsPath : String) : String :=
  cleanupCommand (pathDirname env.sep mainAssetsPath)

/-- The error that reaches the `catch` of `importMainAssetsFolder`, if any: a failure of
`addFromPath`, of `getById` or of the lookup of the auxiliary directory, or the
`ReferenceError` of the cleanup step's own handler when `exec` throws. -/
def bundleError (env : Env) (selectedPath mainAssetsPath : String) : Option JsError :=
  match payloadFiles env mainAssetsPath with
  | [assetFile] =>
    match env.addFromPath (pathJoin env.sep mainAssetsPath assetFile) assetFile
        (bundleTags env selectedPath mainAssetsPath) env.userFolders with
    | .error e => some e
    | .ok itemId =>
      match env.getById itemId with
      | .error e => some e
      | .ok item =>
        match env.checkmainAssetsOthersDirectory mainAssetsPath with
        | .error e => some e
        | .ok _ =>
          if thumbnailSet env mainAssetsPath item && auxiliaryCopied env mainAssetsPath item then
            match env.exec (bundleCleanup env mainAssetsPath) with
            | .error _ => some ⟨"parentFolder is not defined"⟩
            | .ok _ => none
          else none
  | _ => none

/-- Whether the workflow of a bundle runs to its last step, the progress report: the
item was imported, the auxiliary directory was looked up, and the cleanup step, if it was
due, did not throw. -/
def reachesProgress (env : Env) (selectedPath mainAssetsPath : String) : Bool :=
  match importedItem env selectedPath mainAssetsPath with
  | none => false
  | some item =>
    succeeded (env.checkmainAssetsOthersDirectory mainAssetsPath) &&
      (!(thumbnailSet env mainAssetsPath item && auxiliaryCopied env mainAssetsPath item) ||
        succeeded (env.exec (bundleCleanup env mainAssetsPath)))


/-- The spec's `deletable`, together with `imported`: the item was imported, the thumbnail
step succeeded or was not required, and so did the auxiliary copy. -/
def deletable (env : Env) (selectedPath mainAssetsPath : String) : Bool :=
  match importedItem env selectedPath mainAssetsPath with
  | none => false
  | some item => thumbnailSet env mainAssetsPath item && auxiliaryCopied env mainAssetsPath item

/-- The bundles the scan of the selected root discovers, in discovery order. -/
def discoveredBundles (env : Env) (selectedPath : String) : List String :=
  (searchRecursively env.sep env.tree selectedPath ⟨[], []⟩).mainAssetsFolders

/-- The console lines the scan of the selected root writes. -/
def scanConsole (env : Env) (selectedPath : String) : List Event :=
  (searchRecursively env.sep env.tree selectedPath ⟨[], []⟩).console

/-- The effects of the calls of `importMainAssetsFolder` on `folders`, one call for each,
in order, the first with index `i`. -/
def bundleRuns (env : Env) (selectedPath : String) (total : Nat) (folders : List String) (i : Nat) :
    List Event :=
  (folders.enumFrom i).flatMap fun entry =>
    (importMainAssetsFolder env selectedPath entry.2 entry.1 total).events

/-! ## `others.js` -/

/-- How the spawned process ended, as the listeners of `executePowerShellScript` see it:
the `close` event with the exit status (`null` when a signal ended the process) and the
text captured from both streams, or the `error` event. -/
inductive ProcessOutcome where
  | close (code : Option Int) (stdout stderr : String)
  | error (message : String)
deriving DecidableEq, Repr

/-- The object `executePowerShellScript` resolves with. -/
structure ScriptResult where
  success : Bool
  error : Option String
  output : Option String
deriving DecidableEq, Repr

/-- Everything outside `others.js`. -/
structure ThumbnailEnv where
  /-- Node's `path.sep`. -/
  sep : Char
  /-- Node's `__dirname`. -/
  dirname : String
  /-- The answer of `fs.existsSync` before the process is started. -/
  existsBefore : String → Bool
  /-- The answer of `fs.existsSync` after the process has ended. -/
  existsAfter : String → Bool
  /-- The call `spawn(command, args, options)`: it throws, or the process ends somehow. -/
  spawn : String → List String → Except JsError ProcessOutcome

/-- JavaScript's rendering of an exit status in a template string. -/
def codeToString : Option Int → String
  | none => "null"
  | some code => toString code

/-- The argument list `executePowerShellScript` builds. -/
def powerShellArgs (scriptPath inputFile outputFile : String) (size : Nat) : List String :=
  ["-ExecutionPolicy", "Bypass", "-NoProfile", "-NoLogo",
    "-File", "\"" ++ scriptPath ++ "\"",
    "-InputFile", "\"" ++ inputFile ++ "\"",
    "-OutputFile", "\"" ++ outputFile ++ "\"",
    "-Size", toString size]

/-- Source: `executePowerShellScript(scriptPath, inputFile, outputFile, size)`. The promise
is settled by whichever of `close` and `error` comes first. -/
def executePowerShellScript (tenv : ThumbnailEnv) (scriptPath inputFile outputFile : String)
    (size : Nat) : Except JsError ScriptResult :=
  let args := powerShellArgs scriptPath inputFile outputFile size
  match tenv.spawn "pwsh.exe" args with
  | .error e => .error e
  | .ok (.close code stdout stderr) =>
    if code = some 0 then
      .ok { success := true, error := none, output := some stdout }
    else
      .ok { success := false,
            error := some (if stderr ≠ "" then stderr
                           else "PowerShell script exited with code " ++ codeToString code),
            output := some stdout }
  | .ok (.error message) =>
    .ok { success := false,
          error := some ("Failed to execute PowerShell script: " ++ message),
          output := none }

/-- JavaScript's rendering of a possibly missing string in a template string. -/
def optToString : Option String → String
  | none => "undefined"
  | some s => s

/-- The process `others.js` starts for `src` and `dest`, and how it ended. -/
def generatorProcess (tenv : ThumbnailEnv) (src dest : String) : Except JsError ProcessOutcome :=
  tenv.spawn "pwsh.exe"
    (powerShellArgs (pathResolve tenv.sep tenv.dirname "get_thumbnail.ps1") src dest 400)

/-- Source: the function `others.js` exports, `async ({ src, dest, item })`: `.ok item` is
the promise resolved with `item`, `.error e` the promise rejected with `e`. -/
def thumbnailModule {α : Type} (tenv : ThumbnailEnv) (src dest : String) (item : α) :
    Except JsError α :=
  let scriptPath := pathResolve tenv.sep tenv.dirname "get_thumbnail.ps1"
  if !tenv.existsBefore src then
    .error ⟨"Source file does not exist: " ++ src⟩
  else
    match executePowerShellScript tenv scriptPath src dest 400 with
    | .error err => .error err
    | .ok result =>
      if !result.success then
        .error ⟨"Failed to generate thumbnail: " ++ optToString result.error⟩
      else if !tenv.existsAfter dest then
        .error ⟨"file thumbnail generate fail."⟩
      else .ok item

/-! ## Concrete environments -/

/-- A directory the scan can read. -/
def FsNode.dir (entries : List (String × FsNode)) : FsNode :=
  .mk (some true) (some entries)

/-- A plain file. -/
def FsNode.file : FsNode :=
  .mk (some false) none

/-- A root `/root` with three bundles `A`, `B`, `C` of one file each; only `B` has a
thumbnail directory, and the host refuses every thumbnail. No bundle has a directory
`main_assets_others` beside it, every other file-system and host call succeeds, and
`checkmainAssetsOthersDirectory` is what it is in the repository. -/
def batchEnv : Env where
  sep := '/'
  cwd := "/"
  tree := .dir [
    ("A", .dir [("main_assets", .dir [("a.fbx", .file)])]),
    ("B", .dir [("main_assets", .dir [("b.fbx", .file)]),
                ("thumbnail", .dir [("b.PNG", .file)])]),
    ("C", .dir [("main_assets", .dir [("c.fbx", .file)])])]
  existsSync := fun p => p = "/root" || p = "/root/B/thumbnail"
  readdirSync := fun p =>
    if p = "/root/A/main_assets" then .ok ["a.fbx"]
    else if p = "/root/B/main_assets" then .ok ["b.fbx"]
    else if p = "/root/C/main_assets" then .ok ["c.fbx"]
    else if p = "/root/B/thumbnail" then .ok ["b.PNG"]
    else .error ⟨"ENOENT"⟩
  statSync := fun _ => .ok false
  mkdirSync := fun _ => .ok ()
  copyFileSync := fun _ _ => .ok ()
  addFromPath := fun _ name _ _ => .ok ("id-" ++ name)
  getById := fun itemId => .ok ⟨itemId, itemId⟩
  setCustomThumbnail := fun _ _ => .error ⟨"thumbnail rejected"⟩
  libraryPath := "/lib"
  userFolders := []
  checkmainAssetsOthersDirectory := checkmainAssetsOthersDirectory
  exec := fun _ => .ok ()

/-- A root `/root` with one bundle `E` whose directory holds nothing; `D` is a bundle whose
directory holds two files and that the scan does not reach. -/
def emptyBundleEnv : Env where
  sep := '/'
  cwd := "/"
  tree := .dir [("E", .dir [("main_assets", .dir [])])]
  existsSync := fun p => p = "/root"
  readdirSync := fun p => if p = "/root/D/main_assets" then .ok ["d1.fbx", "d2.fbx"] else .ok []
  statSync := fun _ => .ok false
  mkdirSync := fun _ => .ok ()
  copyFileSync := fun _ _ => .ok ()
  addFromPath := fun _ name _ _ => .ok ("id-" ++ name)
  getById := fun itemId => .ok ⟨itemId, itemId⟩
  setCustomThumbnail := fun _ _ => .ok ()
  libraryPath := "/lib"
  userFolders := []
  checkmainAssetsOthersDirectory := fun _ => .ok ⟨false, none, []⟩
  exec := fun _ => .ok ()

/-- A root `/root` without any directory named `main_assets`: a directory `A` with a file,
a file that is itself named `main_assets`, and a directory `locked` that cannot be listed. -/
def noBundleEnv : Env :=
  { emptyBundleEnv with
    tree := .dir [
      ("A", .dir [("notes.txt", .file)]),
      ("main_assets", .file),
      ("locked", .mk (some true) none)] }

/-- A root `/root` with three bundles of one file each and no thumbnails: the host refuses
to add the file of `A`, `exec` throws on the cleanup command of `B`, and `C` goes through. -/
def throwingEnv : Env where
  sep := '/'
  cwd := "/"
  tree := .dir [
    ("A", .dir [("main_assets", .dir [("a.fbx", .file)])]),
    ("B", .dir [("main_assets", .dir [("b.fbx", .file)])]),
    ("C", .dir [("main_assets", .dir [("c.fbx", .file)])])]
  existsSync := fun p => p = "/root"
  readdirSync := fun p =>
    if p = "/root/A/main_assets" then .ok ["a.fbx"]
    else if p = "/root/B/main_assets" then .ok ["b.fbx"]
    else if p = "/root/C/main_assets" then .ok ["c.fbx"]
    else .error ⟨"ENOENT"⟩
  statSync := fun _ => .ok false
  mkdirSync := fun _ => .ok ()
  copyFileSync := fun _ _ => .ok ()
  addFromPath := fun _ name _ _ =>
    if name = "a.fbx" then .error ⟨"host unavailable"⟩ else .ok ("id-" ++ name)
  getById := fun itemId => .ok ⟨itemId, itemId⟩
  setCustomThumbnail := fun _ _ => .ok ()
  libraryPath := "/lib"
  userFolders := []
  checkmainAssetsOthersDirectory := fun _ => .ok ⟨false, none, []⟩
  exec := fun command =>
    if command = cleanupCommand "/root/B" then .error ⟨"spawn EAGAIN"⟩ else .ok ()

/-- A root whose first entry cannot be stat-ed (a dangling link, say) and whose second
entry `A` holds a bundle. -/
def brokenEntryTree : FsNode :=
  .dir [("broken", .mk none none), ("A", .dir [("main_assets", .dir [])])]

/-- The same root with the two entries listed in the other order. -/
def brokenEntryLastTree : FsNode :=
  .dir [("A", .dir [("main_assets", .dir [])]), ("broken", .mk none none)]

/-- A root whose first entry is a directory that cannot be listed and whose second entry
`A` holds a bundle. -/
def lockedDirTree : FsNode :=
  .dir [("locked", .mk (some true) none), ("A", .dir [("main_assets", .dir [])])]

/-- A fully readable root: a file and a directory named `main_assets` side by side under
`A`, the directory holding a nested `main_assets`; a bundle under `B/C`; a file named
`main_assets` under `D`. -/
def nestedTree : FsNode :=
  .dir [
    ("A", .dir [
      ("main_assets", .dir [("x.fbx", .file), ("inner", .dir [("main_assets", .dir [])])]),
      ("notes.txt", .file)]),
    ("B", .dir [("C", .dir [("main_assets", .dir [])])]),
    ("D", .dir [("main_assets", .file)])]

/-- A thumbnail generator whose process ends with exit status 1 and an error text. -/
def failingGenerator : ThumbnailEnv where
  sep := '/'
  dirname := "/plugin"
  existsBefore := fun _ => true
  existsAfter := fun _ => false
  spawn := fun _ _ => .ok (.close (some 1) "" "cannot render")

/-- A thumbnail generator whose process ends with exit status 0 and writes the output
file, but also writes a warning to its error stream. -/
def warningGenerator : ThumbnailEnv where
  sep := '/'
  dirname := "/plugin"
  existsBefore := fun _ => true
  existsAfter := fun _ => true
  spawn := fun _ _ => .ok (.close (some 0) "done" "WARNING: slow shell")

/-- A thumbnail generator whose process ends with exit status 0 and writes no file. -/
def noOutputGenerator : ThumbnailEnv where
  sep := '/'
  dirname := "/plugin"
  existsBefore := fun _ => true
  existsAfter := fun _ => false
  spawn := fun _ _ => .ok (.close (some 0) "" "")

/-- A thumbnail directory of four entries: an image with an upper-case extension, a text
file, a file named `png` without extension, and a directory named like an image. -/
def thumbnailEnv : Env :=
  { batchEnv with
    readdirSync := fun p =>
      if p = "/root/B/thumbnail" then .ok ["a.PNG", "a.txt", "png", "dir.jpg"]
      else .error ⟨"ENOENT"⟩
    statSync := fun p => .ok (p = "/root/B/thumbnail/dir.jpg") }

/-- The thumbnail directory of bundle `B` listing `names`, all of them plain files, except
that `statSync` throws on the entry `dangling` when there is one (a symbolic link whose
target is gone). -/
def thumbnailDirEnv (names : List String) : Env :=
  { batchEnv with
    readdirSync := fun p =>
      if p = "/root/B/thumbnail" then .ok names else .error ⟨"ENOENT"⟩
    statSync := fun p =>
      if p = "/root/B/thumbnail/dangling" then
        .error ⟨"ENOENT: no such file or directory, stat '/root/B/thumbnail/dangling'"⟩
      else .ok false }

/-- The globals once `/root` has been selected. -/
def rootSelected : Globals := { selectedPath := "/root", isImporting := false }

end AssetManager


namespace AssetManager

open Run

/-! ## Runs -/

theorem bind_eq_andThen {α β : Type} (m : Run α) (f : α → Run β) : m >>= f = andThen m f := rfl

theorem pure_eq {α : Type} (a : α) : (pure a : Run α) = ⟨[], .ok a⟩ := rfl

theorem andThen_ok {α β : Type} {m : Run α} {a : α} (f : α → Run β) (h : m.result = .ok a) :
    andThen m f = ⟨m.events ++ (f a).events, (f a).result⟩ := by
  simp [andThen, h]

theorem andThen_error {α β : Type} {m : Run α} {e : JsError} (f : α → Run β)
    (h : m.result = .error e) : andThen m f = ⟨m.events, .error e⟩ := by
  simp [andThen, h]

@[simp] theorem execCommands_append (xs ys : List Event) :
    execCommands (xs ++ ys) = execCommands xs ++ execCommands ys := by
  simp [execCommands]

@[simp] theorem progressReports_append (xs ys : List Event) :
    progressReports (xs ++ ys) = progressReports xs ++ progressReports ys := by
  simp [progressReports]

theorem execCommands_cons (e : Event) (es : List Event) :
    execCommands (e :: es) =
      (match e with
        | .exec command => [command]
        | _ => []) ++ execCommands es := by
  cases e <;> rfl

theorem progressReports_cons (e : Event) (es : List Event) :
    progressReports (e :: es) =
      (match e with
        | .updateProgress current total => [(current, total)]
        | _ => []) ++ progressReports es := by
  cases e <;> rfl

theorem importedTags_cons (e : Event) (es : List Event) :
    importedTags (e :: es) =
      (match e with
        | .addFromPath _ _ tags _ => [tags]
        | _ => []) ++ importedTags es := by
  cases e <;> rfl

@[simp] theorem execCommands_nil : execCommands [] = [] := rfl

@[simp] theorem progressReports_nil : progressReports [] = [] := rfl

@[simp] theorem importedTags_nil : importedTags [] = [] := rfl

@[simp] theorem importedTags_append (xs ys : List Event) :
    importedTags (xs ++ ys) = importedTags xs ++ importedTags ys := by
  simp [importedTags]

/-! ## `getFiles` and `checkThumbnailDirectory` -/

theorem getFilesLoop_events (env : Env) (dirPath : String) (items files : List String) :
    (getFilesLoop env dirPath items files).events = [] := by
  induction items generalizing files with
  | nil => rfl
  | cons item rest ih =>
    simp only [getFilesLoop, bind_eq_andThen]
    cases h : env.statSync (pathJoin env.sep dirPath item) with
    | error e => simp [andThen, ask, h]
    | ok d => simp [andThen, ask, h, ih]

theorem tryCatch_ok {α : Type} {body : Run α} {a : α} (handler : JsError → Run α)
    (h : body.result = .ok a) : Run.tryCatch body handler = body := by
  simp [Run.tryCatch, h]

theorem tryCatch_error {α : Type} {body : Run α} {e : JsError} (handler : JsError → Run α)
    (h : body.result = .error e) :
    Run.tryCatch body handler = ⟨body.events ++ (handler e).events, (handler e).result⟩ := by
  simp [Run.tryCatch, h]

theorem getFiles_result (env : Env) (dirPath : String) :
    (getFiles env dirPath).result = .ok (payloadFiles env dirPath) := by
  have h : ∃ fs, (getFiles env dirPath).result = .ok fs := by
    simp only [getFiles, Run.tryCatch, bind_eq_andThen]
    split
    · next a h => exact ⟨a, h⟩
    · exact ⟨[], rfl⟩
  obtain ⟨fs, h⟩ := h
  simp [payloadFiles, Run.value?, h]

theorem getFiles_events (env : Env) (dirPath : String) :
    (getFiles env dirPath).events = [] ∨
      (getFiles env dirPath).events = [.consoleError "读取文件失败:"] := by
  simp only [getFiles, bind_eq_andThen]
  cases h : env.readdirSync dirPath with
  | error e => right; simp [andThen, Run.tryCatch, ask, h, emit, pure_eq]
  | ok items =>
    simp only [andThen, ask, h, List.nil_append]
    cases h2 : (getFilesLoop env dirPath items []).result with
    | ok fs => left; simp [Run.tryCatch, h2, getFilesLoop_events]
    | error e => right; simp [Run.tryCatch, h2, getFilesLoop_events, emit, pure_eq]

theorem silent_nil : Silent [] := ⟨rfl, rfl, rfl⟩

theorem Silent.append {xs ys : List Event} (hx : Silent xs) (hy : Silent ys) :
    Silent (xs ++ ys) := by
  obtain ⟨a, b, c⟩ := hx
  obtain ⟨d, e, f⟩ := hy
  simp [Silent, a, b, c, d, e, f]

theorem getFiles_silent (env : Env) (dirPath : String) : Silent (getFiles env dirPath).events := by
  rcases getFiles_events env dirPath with h | h <;> rw [h] <;>
    simp [Silent, execCommands, progressReports, importedTags]

/-- What `checkThumbnailDirectory` returns: it always returns, its files are the usable
thumbnail files, and when there is one the directory exists and is the sibling `thumbnail`. -/
theorem checkThumbnailDirectory_result (env : Env) (p : String) :
    ∃ info, (checkThumbnailDirectory env p).result = .ok info ∧
      info.files = thumbnailFiles env p ∧
      (info.exists_ = false → info.files = []) ∧
      (info.exists_ = true → info.path = some (thumbnailDir env p)) := by
  have key : ∃ info, (checkThumbnailDirectory env p).result = .ok info ∧
      (info.exists_ = false → info.files = []) ∧
      (info.exists_ = true → info.path = some (thumbnailDir env p)) := by
    simp only [checkThumbnailDirectory, bind_eq_andThen]
    cases hex : env.existsSync (pathJoin env.sep (pathDirname env.sep p) "thumbnail") with
    | false =>
      refine ⟨⟨false, none, []⟩, ?_, by simp, by simp⟩
      simp [Run.tryCatch, pure_eq]
    | true =>
      simp only [Bool.not_true, Bool.false_eq_true, if_false]
      rw [andThen_ok _ (getFiles_result env _)]
      refine ⟨⟨true, some (thumbnailDir env p), List.filter (isImageFile env.sep)
        (payloadFiles env (thumbnailDir env p))⟩, ?_, by simp, by simp⟩
      simp [Run.tryCatch, pure_eq, thumbnailDir]
  obtain ⟨info, h, h1, h2⟩ := key
  exact ⟨info, h, by simp [thumbnailFiles, Run.value?, h], h1, h2⟩

theorem checkThumbnailDirectory_silent (env : Env) (p : String) :
    Silent (checkThumbnailDirectory env p).events := by
  simp only [checkThumbnailDirectory, bind_eq_andThen]
  cases hex : env.existsSync (pathJoin env.sep (pathDirname env.sep p) "thumbnail") with
  | false => simp [Run.tryCatch, pure_eq, silent_nil]
  | true =>
    simp only [Bool.not_true, Bool.false_eq_true, if_false]
    rw [andThen_ok _ (getFiles_result env _)]
    simp only [Run.tryCatch, pure_eq, List.append_nil]
    exact getFiles_silent env _

/-! ## The steps of `importMainAssetsFolder` -/

theorem thumbnailStep_spec (env : Env) (p : String) (info : DirInfo) (item : Item)
    (hfiles : info.files = thumbnailFiles env p)
    (hno : info.exists_ = false → info.files = [])
    (hyes : info.exists_ = true → info.path = some (thumbnailDir env p)) :
    (thumbnailStep env info item).result = .ok (thumbnailSet env p item) ∧
      Silent (thumbnailStep env info item).events := by
  unfold thumbnailStep thumbnailSet
  rw [← hfiles]
  cases hex : info.exists_ with
  | false => simp [hno hex, pure_eq, silent_nil]
  | true =>
    cases hfs : info.files with
    | nil => simp [pure_eq, silent_nil]
    | cons f rest =>
      simp only [Bool.true_and, List.length_cons, gt_iff_lt, Nat.zero_lt_succ, decide_True,
        if_true, hyes hex, pathJoinNullable, List.headD_cons, bind_eq_andThen, pure_eq]
      cases hset : env.setCustomThumbnail item (pathJoin env.sep (thumbnailDir env p) f) with
      | ok u =>
        simp [andThen, Run.tryCatch, call, hset, addLog, emit, succeeded, Silent, execCommands,
          progressReports, importedTags]
      | error e =>
        simp [andThen, Run.tryCatch, call, hset, addLog, emit, succeeded, Silent, execCommands,
          progressReports, importedTags]

theorem copyOthersLoop_spec (env : Env) (srcDir destPath : String) (files : List String) :
    succeeded (copyOthersLoop env (some srcDir) destPath files).result =
        files.all (fun file => succeeded
          (env.copyFileSync (pathJoin env.sep srcDir file) (pathJoin env.sep destPath file))) ∧
      Silent (copyOthersLoop env (some srcDir) destPath files).events := by
  induction files with
  | nil => simp [copyOthersLoop, pure_eq, succeeded, silent_nil]
  | cons file rest ih =>
    simp only [copyOthersLoop, pathJoinNullable, bind_eq_andThen, pure_eq]
    cases hc : env.copyFileSync (pathJoin env.sep srcDir file) (pathJoin env.sep destPath file) with
    | error e =>
      simp [andThen, call, hc, succeeded, Silent, execCommands, progressReports, importedTags]
    | ok u =>
      obtain ⟨ih1, ih2, ih3, ih4⟩ := ih
      simp only [andThen, call, hc, addLog, emit, List.nil_append, List.all_cons, succeeded,
        Bool.true_and]
      refine ⟨ih1, ?_⟩
      simp [Silent, execCommands, progressReports, importedTags] at ih2 ih3 ih4 ⊢
      exact ⟨ih2, ih3, ih4⟩

theorem copyOthersLoop_none (env : Env) (destPath : String) (file : String) (rest : List String) :
    succeeded (copyOthersLoop env none destPath (file :: rest)).result = false ∧
      (copyOthersLoop env none destPath (file :: rest)).events = [] := by
  simp [copyOthersLoop, pathJoinNullable, bind_eq_andThen, andThen, Run.throw, succeeded]

@[simp] theorem succeeded_ok {α : Type} (a : α) :
    succeeded (Except.ok a : Except JsError α) = true := rfl

@[simp] theorem succeeded_error {α : Type} (e : JsError) :
    succeeded (Except.error e : Except JsError α) = false := rfl

/-- The copy of the auxiliary files, as `othersStep` runs it inside its `try`. -/
theorem copyBlock_spec (env : Env) (info : DirInfo) (destPath : String) :
    succeeded (do
        if !env.existsSync destPath then
          call (.mkdirSync destPath) (env.mkdirSync destPath)
        copyOthersLoop env info.path destPath info.files
        pure true : Run Bool).result =
      ((env.existsSync destPath || succeeded (env.mkdirSync destPath)) &&
        (info.files = [] ||
          allCopied env info.path destPath info.files)) ∧
    Silent (do
        if !env.existsSync destPath then
          call (.mkdirSync destPath) (env.mkdirSync destPath)
        copyOthersLoop env info.path destPath info.files
        pure true : Run Bool).events := by
  have loop : succeeded (copyOthersLoop env info.path destPath info.files).result =
      (info.files = [] ||
          allCopied env info.path destPath info.files) ∧
      Silent (copyOthersLoop env info.path destPath info.files).events := by
    cases hp : info.path with
    | none =>
      cases hf : info.files with
      | nil => simp [copyOthersLoop, pure_eq, succeeded, silent_nil]
      | cons f rest =>
        obtain ⟨h1, h2⟩ := copyOthersLoop_none env destPath f rest
        simp [h1, h2, silent_nil, allCopied]
    | some srcDir =>
      obtain ⟨h1, h2⟩ := copyOthersLoop_spec env srcDir destPath info.files
      refine ⟨?_, h2⟩
      rw [h1]
      cases hf : info.files <;> simp [allCopied]
  obtain ⟨l1, l2⟩ := loop
  have tail : succeeded ((copyOthersLoop env info.path destPath info.files).andThen
        fun _ => (pure true : Run Bool)).result =
        succeeded (copyOthersLoop env info.path destPath info.files).result ∧
      Silent ((copyOthersLoop env info.path destPath info.files).andThen
        fun _ => (pure true : Run Bool)).events := by
    cases hr : (copyOthersLoop env info.path destPath info.files).result with
    | ok u => simp [andThen, hr, pure_eq, succeeded, l2]
    | error e => simp [andThen, hr, succeeded, l2]
  obtain ⟨t1, t2⟩ := tail
  simp only [bind_eq_andThen]
  cases hex : env.existsSync destPath with
  | true =>
    simp only [Bool.not_true, Bool.false_eq_true, if_false, Bool.true_or, Bool.true_and]
    rw [andThen_ok (m := (pure PUnit.unit : Run PUnit)) _ rfl]
    simp only [pure_eq, List.nil_append]
    exact ⟨by rw [← l1, ← t1]; rfl, t2⟩
  | false =>
    simp only [Bool.not_false, if_true, Bool.false_or]
    cases hm : env.mkdirSync destPath with
    | error e =>
      simp [andThen, call, hm, succeeded, Silent, execCommands, progressReports, importedTags]
    | ok u =>
      rw [andThen_ok (m := call (.mkdirSync destPath) (Except.ok u)) _ rfl]
      simp only [call, succeeded_ok, Bool.true_and]
      refine ⟨by rw [← l1, ← t1], ?_⟩
      obtain ⟨a, b, c⟩ := t2
      simp only [Silent, execCommands_append, progressReports_append, importedTags_append, a, b, c]
      simp [execCommands, progressReports, importedTags]

theorem andThen_const_result {α β : Type} (m : Run α) (c b : β)
    (h : (m.andThen fun _ => (pure c : Run β)).result = .ok b) : b = c := by
  cases hr : m.result with
  | ok a =>
    rw [andThen_ok _ hr] at h
    simp only [pure_eq, Except.ok.injEq] at h
    exact h.symm
  | error e =>
    rw [andThen_error _ hr] at h
    simp at h

theorem andThen_andThen_const_result {α β γ : Type} (m : Run α) (n : Run β) (c b : γ)
    (h : (m.andThen fun _ => n.andThen fun _ => (pure c : Run γ)).result = .ok b) : b = c := by
  cases hr : m.result with
  | ok a =>
    rw [andThen_ok _ hr] at h
    exact andThen_const_result n c b h
  | error e =>
    rw [andThen_error _ hr] at h
    simp at h

theorem copyBlock_value (env : Env) (info : DirInfo) (destPath : String) (b : Bool)
    (h : (do
        if !env.existsSync destPath then
          call (.mkdirSync destPath) (env.mkdirSync destPath)
        copyOthersLoop env info.path destPath info.files
        pure true : Run Bool).result = .ok b) : b = true := by
  simp only [bind_eq_andThen] at h
  split at h
  · exact andThen_andThen_const_result _ _ _ _ h
  · exact andThen_andThen_const_result _ _ _ _ h

theorem othersStep_error (env : Env) (p : String) (item : Item) (e : JsError)
    (h : env.checkmainAssetsOthersDirectory p = .error e) :
    othersStep env p item = ⟨[], .error e⟩ := by
  simp [othersStep, bind_eq_andThen, andThen, ask, h]

theorem othersStep_ok (env : Env) (p : String) (item : Item) (info : DirInfo)
    (h : env.checkmainAssetsOthersDirectory p = .ok info) :
    (othersStep env p item).result = .ok (auxiliaryCopied env p item) ∧
      Silent (othersStep env p item).events := by
  unfold othersStep auxiliaryCopied
  simp only [bind_eq_andThen, h]
  rw [andThen_ok (m := ask (Except.ok info)) _ rfl]
  simp only [ask, List.nil_append]
  cases hreq : (info.exists_ && decide (info.files.length > 0)) with
  | false => simp [pure_eq, silent_nil]
  | true =>
    simp only [if_true, Bool.not_true, Bool.false_or]
    have hne : info.files ≠ [] := by
      intro hnil
      simp [hnil] at hreq
    obtain ⟨c1, c2⟩ := copyBlock_spec env info
      (pathJoinAll env.sep [env.libraryPath, "images", item.id ++ ".info"])
    simp only [bind_eq_andThen] at c1 c2
    simp only [hne, decide_False, Bool.false_or] at c1
    unfold copySucceeds
    simp only
    rw [← c1]
    have c3 := copyBlock_value env info
      (pathJoinAll env.sep [env.libraryPath, "images", item.id ++ ".info"])
    simp only [bind_eq_andThen] at c3
    generalize (if (!env.existsSync
        (pathJoinAll env.sep [env.libraryPath, "images", item.id ++ ".info"])) = true then _
      else _ : Run Bool) = block at c1 c2 c3 ⊢
    cases hr : block.result with
    | ok b =>
      have hb : b = true := c3 b hr
      subst hb
      rw [tryCatch_ok _ hr]
      exact ⟨by simp [hr], c2⟩
    | error e =>
      rw [tryCatch_error _ hr]
      refine ⟨by simp [andThen, addLog, emit, pure_eq], ?_⟩
      refine c2.append ?_
      simp [Silent, andThen, addLog, emit, pure_eq, execCommands, progressReports, importedTags]

theorem cleanupStep_spec (env : Env) (p : String) :
    execCommands (cleanupStep env p).events = [bundleCleanup env p] ∧
      progressReports (cleanupStep env p).events = [] ∧
      importedTags (cleanupStep env p).events = [] ∧
      (cleanupStep env p).result =
        (match env.exec (bundleCleanup env p) with
          | .ok _ => .ok ()
          | .error _ => .error ⟨"parentFolder is not defined"⟩) := by
  unfold cleanupStep bundleCleanup
  cases h : env.exec (cleanupCommand (pathDirname env.sep p)) with
  | ok u =>
    simp [bind_eq_andThen, andThen, Run.tryCatch, call, emit, h, execCommands_cons,
      progressReports_cons, importedTags_cons]
  | error e =>
    simp [bind_eq_andThen, andThen, Run.tryCatch, call, emit, h, execCommands_cons,
      progressReports_cons, importedTags_cons, Run.throw]

/-! ## One bundle -/

theorem bundleTags_eq (env : Env) (sel p : String) (info : DirInfo)
    (hfiles : info.files = thumbnailFiles env p)
    (hno : info.exists_ = false → info.files = []) :
    (if (!info.exists_ || decide (info.files.length = 0)) = true then
        generateTagsFromPath env.sep env.cwd sel p ++ ["no_thumbnail"]
      else generateTagsFromPath env.sep env.cwd sel p) = bundleTags env sel p := by
  unfold bundleTags
  rw [← hfiles]
  cases hex : info.exists_ with
  | false => simp [hno hex]
  | true =>
    cases hf : info.files with
    | nil => simp
    | cons f rest => simp

theorem except_cases {α : Type} (x : Except JsError α) :
    (∃ e, x = .error e) ∨ ∃ a, x = .ok a := by
  cases x with
  | error e => exact .inl ⟨e, rfl⟩
  | ok a => exact .inr ⟨a, rfl⟩

/-- What the `try` block of `importMainAssetsFolder` does, read off the answers of the
outside: how it ends, the commands it hands to `exec`, its progress reports and the tags it
hands to the host. -/
theorem importBody_spec (env : Env) (sel p : String) (i n : Nat) :
    (importBody env sel p i n).result =
      (match bundleError env sel p with
        | some e => .error e
        | none => .ok ()) ∧
    execCommands (importBody env sel p i n).events =
      (match importedItem env sel p with
        | some item =>
          if thumbnailSet env p item && auxiliaryCopied env p item then [bundleCleanup env p]
          else []
        | none => []) ∧
    progressReports (importBody env sel p i n).events =
      (if reachesProgress env sel p then [(i + 1, n)] else []) ∧
    importedTags (importBody env sel p i n).events =
      (match payloadFiles env p with
        | [_] => [bundleTags env sel p]
        | _ => []) := by
  obtain ⟨g1, g2, g3⟩ := getFiles_silent env p
  obtain ⟨info, hinfo, hfiles, hno, hyes⟩ := checkThumbnailDirectory_result env p
  obtain ⟨t1, t2, t3⟩ := checkThumbnailDirectory_silent env p
  have htags := bundleTags_eq env sel p info hfiles hno
  unfold importBody
  simp only [bind_eq_andThen]
  rw [andThen_ok (m := addLog _ _) _ rfl, andThen_ok _ (getFiles_result env p)]
  cases hpf : payloadFiles env p with
  | nil =>
    have hI : importedItem env sel p = none := by simp [importedItem, hpf]
    have hE : bundleError env sel p = none := by simp [bundleError, hpf]
    have hR : reachesProgress env sel p = false := by simp [reachesProgress, hI]
    rw [hI, hR, hE]
    simp [addLog, emit, execCommands_cons, progressReports_cons, importedTags_cons, g1, g2, g3]
  | cons assetFile more =>
    cases more with
    | cons other more =>
      have hI : importedItem env sel p = none := by simp [importedItem, hpf]
      have hE : bundleError env sel p = none := by simp [bundleError, hpf]
      have hR : reachesProgress env sel p = false := by simp [reachesProgress, hI]
      rw [hI, hR, hE]
      simp [addLog, emit, execCommands_cons, progressReports_cons, importedTags_cons, g1, g2, g3]
    | nil =>
      simp only [List.length_singleton, Nat.succ_ne_zero, if_false, gt_iff_lt, Nat.lt_irrefl,
        List.headD_cons, one_ne_zero]
      rw [andThen_ok _ hinfo]
      simp only [htags]
      rw [andThen_ok (m := addLog _ _) _ rfl, andThen_ok (m := addLog _ _) _ rfl]
      rcases except_cases (env.addFromPath (pathJoin env.sep p assetFile) assetFile
          (bundleTags env sel p) env.userFolders) with ⟨e, hadd⟩ | ⟨itemId, hadd⟩
      · have hI : importedItem env sel p = none := by simp [importedItem, hpf, hadd]
        have hE : bundleError env sel p = some e := by simp [bundleError, hpf, hadd]
        have hR : reachesProgress env sel p = false := by simp [reachesProgress, hI]
        rw [hI, hR, hE]
        simp [andThen, call, hadd, addLog, emit, execCommands_cons, progressReports_cons,
          importedTags_cons, g1, g2, g3, t1, t2, t3]
      · try simp only [hadd]
        rw [andThen_ok (m := call _ (Except.ok itemId)) _ rfl,
          andThen_ok (m := emit _) _ rfl]
        rcases except_cases (env.getById itemId) with ⟨e, hget⟩ | ⟨item, hget⟩
        · have hI : importedItem env sel p = none := by simp [importedItem, hpf, hadd, hget]
          have hE : bundleError env sel p = some e := by simp [bundleError, hpf, hadd, hget]
          have hR : reachesProgress env sel p = false := by simp [reachesProgress, hI]
          rw [hI, hR, hE]
          simp [andThen, call, hget, addLog, emit, execCommands_cons, progressReports_cons,
            importedTags_cons, g1, g2, g3, t1, t2, t3]
        · have hI : importedItem env sel p = some item := by
            simp [importedItem, hpf, hadd, hget]
          try simp only [hget]
          rw [andThen_ok (m := call _ (Except.ok item)) _ rfl,
            andThen_ok (m := addLog _ _) _ rfl]
          obtain ⟨ts1, ts2, ts3, ts4⟩ := thumbnailStep_spec env p info item hfiles hno hyes
          rw [andThen_ok _ ts1]
          rcases except_cases (env.checkmainAssetsOthersDirectory p) with ⟨e, hchk⟩ | ⟨oinfo, hchk⟩
          · have hA : auxiliaryCopied env p item = false := by simp [auxiliaryCopied, hchk]
            have hE : bundleError env sel p = some e := by
              simp [bundleError, hpf, hadd, hget, hchk]
            have hR : reachesProgress env sel p = false := by simp [reachesProgress, hI, hchk]
            rw [hI, hR, hE]
            rw [othersStep_error env p item e hchk]
            simp [andThen, call, addLog, emit, execCommands_cons, progressReports_cons,
              importedTags_cons, hA, g1, g2, g3, t1, t2, t3, ts2, ts3, ts4]
          · obtain ⟨o1, o2, o3, o4⟩ := othersStep_ok env p item oinfo hchk
            rw [andThen_ok _ o1]
            obtain ⟨c1, c2, c3, c4⟩ := cleanupStep_spec env p
            cases hdel : (thumbnailSet env p item && auxiliaryCopied env p item) with
            | false =>
              have hE : bundleError env sel p = none := by
                simp [bundleError, hpf, hadd, hget, hchk, hdel]
              have hR : reachesProgress env sel p = true := by
                simp [reachesProgress, hI, hchk, hdel]
              rw [hI, hR, hE]
              simp [andThen, call, addLog, emit, execCommands_cons, progressReports_cons,
                importedTags_cons, updateProgress, hdel, g1, g2, g3, t1, t2, t3, ts2, ts3, ts4,
                o2, o3, o4]
            | true =>
              simp only [if_true]
              rcases except_cases (env.exec (bundleCleanup env p)) with ⟨e, hex⟩ | ⟨u, hex⟩
              · have hE : bundleError env sel p = some ⟨"parentFolder is not defined"⟩ := by
                  simp [bundleError, hpf, hadd, hget, hchk, hdel, hex]
                have hR : reachesProgress env sel p = false := by
                  simp [reachesProgress, hI, hchk, hdel, hex]
                rw [hex] at c4
                rw [hI, hR, hE, andThen_error _ c4]
                simp [andThen, call, addLog, emit, execCommands_cons, progressReports_cons,
                  importedTags_cons, g1, g2, g3, t1, t2, t3, ts2, ts3, ts4, o2, o3, o4,
                  c1, c2, c3, hdel]
              · have hE : bundleError env sel p = none := by
                  simp [bundleError, hpf, hadd, hget, hchk, hdel, hex]
                have hR : reachesProgress env sel p = true := by
                  simp [reachesProgress, hI, hchk, hdel, hex]
                rw [hex] at c4
                rw [hI, hR, hE, andThen_ok _ c4]
                simp [call, addLog, emit, execCommands_cons, progressReports_cons,
                  importedTags_cons, updateProgress, g1, g2, g3, t1, t2, t3, ts2, ts3, ts4,
                  o2, o3, o4, c1, c2, c3, hdel]

/-- What one call of `importMainAssetsFolder` does: it returns, whatever happened inside,
and the `catch` adds no command, progress report or host import of its own. -/
theorem importMainAssetsFolder_spec (env : Env) (sel p : String) (i n : Nat) :
    (importMainAssetsFolder env sel p i n).result = .ok () ∧
    execCommands (importMainAssetsFolder env sel p i n).events =
      (match importedItem env sel p with
        | some item =>
          if thumbnailSet env p item && auxiliaryCopied env p item then [bundleCleanup env p]
          else []
        | none => []) ∧
    progressReports (importMainAssetsFolder env sel p i n).events =
      (if reachesProgress env sel p then [(i + 1, n)] else []) ∧
    importedTags (importMainAssetsFolder env sel p i n).events =
      (match payloadFiles env p with
        | [_] => [bundleTags env sel p]
        | _ => []) := by
  obtain ⟨b1, b2, b3, b4⟩ := importBody_spec env sel p i n
  unfold importMainAssetsFolder
  cases hE : bundleError env sel p with
  | none =>
    rw [hE] at b1
    rw [tryCatch_ok _ b1]
    exact ⟨b1, b2, b3, b4⟩
  | some e =>
    rw [hE] at b1
    rw [tryCatch_error _ b1]
    simp [bind_eq_andThen, andThen, addLog, emit, execCommands_cons, progressReports_cons,
      importedTags_cons, b2, b3, b4]

theorem mem_execCommands (command : String) (events : List Event) :
    command ∈ execCommands events ↔ Event.exec command ∈ events := by
  induction events with
  | nil => simp
  | cons e es ih =>
    rw [execCommands_cons]
    cases e <;> simp [ih]

theorem checkThumbnailDirectory_eq (env : Env) (p : String) :
    (checkThumbnailDirectory env p).result =
      .ok (if env.existsSync (thumbnailDir env p) then
          { exists_ := true, path := some (thumbnailDir env p),
            files := (payloadFiles env (thumbnailDir env p)).filter (isImageFile env.sep) }
        else { exists_ := false, path := none, files := [] }) := by
  simp only [checkThumbnailDirectory, bind_eq_andThen, thumbnailDir]
  cases hex : env.existsSync (pathJoin env.sep (pathDirname env.sep p) "thumbnail") with
  | false => simp [Run.tryCatch, pure_eq]
  | true =>
    simp only [Bool.not_true, Bool.false_eq_true, if_false]
    rw [andThen_ok _ (getFiles_result env _)]
    simp [Run.tryCatch, pure_eq]

theorem thumbnailFiles_eq (env : Env) (p : String) :
    thumbnailFiles env p =
      if env.existsSync (thumbnailDir env p) then
        (payloadFiles env (thumbnailDir env p)).filter (isImageFile env.sep)
      else [] := by
  unfold thumbnailFiles
  rw [Run.value?, checkThumbnailDirectory_eq]
  cases env.existsSync (thumbnailDir env p) <;> simp

/-! ## The claims about one bundle -/

theorem mem_importedTags (tags : List String) (events : List Event) :
    tags ∈ importedTags events ↔
      ∃ path name folders, Event.addFromPath path name tags folders ∈ events := by
  induction events with
  | nil => simp
  | cons e es ih =>
    rw [importedTags_cons]
    cases e with
    | addFromPath path name tags2 folders =>
      simp only [List.singleton_append, List.mem_cons, ih]
      constructor
      · rintro (h | ⟨a, b, c, h⟩)
        · exact ⟨path, name, folders, .inl (by rw [h])⟩
        · exact ⟨a, b, c, .inr h⟩
      · rintro ⟨a, b, c, h | h⟩
        · injection h with _ _ h3 _
          exact .inl h3
        · exact .inr ⟨a, b, c, h⟩
    | _ => simp [ih]

/-- With `checkmainAssetsOthersDirectory` as it is in the repository, the call on line 282
throws before the cleanup step and the progress report are reached: one call of
`importMainAssetsFolder` issues no command and reports no progress. -/
theorem importMainAssetsFolder_helper_undefined (env : Env) (sel p : String) (i n : Nat)
    (hrepo : env.checkmainAssetsOthersDirectory = checkmainAssetsOthersDirectory) :
    execCommands (importMainAssetsFolder env sel p i n).events = [] ∧
    progressReports (importMainAssetsFolder env sel p i n).events = [] := by
  obtain ⟨_, hexec, hprog, _⟩ := importMainAssetsFolder_spec env sel p i n
  have haux : ∀ item, auxiliaryCopied env p item = false := by
    intro item
    simp [auxiliaryCopied, hrepo, checkmainAssetsOthersDirectory]
  have hreach : reachesProgress env sel p = false := by
    unfold reachesProgress
    cases importedItem env sel p <;> simp [hrepo, checkmainAssetsOthersDirectory, succeeded]
  rw [hexec, hprog, hreach]
  cases importedItem env sel p <;> simp [haux]

set_option maxRecDepth 100000 in
/-- C1, where the code departs from it: bundle `A` of `batchEnv` holds one file, has no
thumbnail directory and no directory `main_assets_others` beside it, and the host imports
its file. So the item is imported, no thumbnail step and no copy is required, and C1 has
the command that deletes `/root/A` issued. The code does not issue it: after the import the
call of `checkmainAssetsOthersDirectory`, a name the repository never defines, throws; the
error is logged at the bundle boundary and the run ends there, before the cleanup block.
It is so for every bundle: with the helper as it is in the repository, no command is ever
issued. -/
theorem imported_bundle_is_never_cleaned_up :
    payloadFiles batchEnv "/root/A/main_assets" = ["a.fbx"] ∧
    batchEnv.existsSync "/root/A/thumbnail" = false ∧
    batchEnv.existsSync "/root/A/main_assets_others" = false ∧
    importedItem batchEnv "/root" "/root/A/main_assets" = some ⟨"id-a.fbx", "id-a.fbx"⟩ ∧
    thumbnailSet batchEnv "/root/A/main_assets" ⟨"id-a.fbx", "id-a.fbx"⟩ = true ∧
    bundleCleanup batchEnv "/root/A/main_assets" =
      "pwsh -NoProfile -Command \" Add-Type -AssemblyName Microsoft.VisualBasic; [Microsoft.VisualBasic.FileIO.FileSystem]::DeleteDirectory(     '/root/A',     [Microsoft.VisualBasic.FileIO.UIOption]::OnlyErrorDialogs,     [Microsoft.VisualBasic.FileIO.RecycleOption]::SendToRecycleBin ) \"" ∧
    (importMainAssetsFolder batchEnv "/root" "/root/A/main_assets" 0 3).events =
      [Event.addLog "处理: /root/A/main_assets" "info",
        Event.addLog "导入文件: a.fbx" "info",
        Event.addLog "标签: A, no_thumbnail" "info",
        Event.addFromPath "/root/A/main_assets/a.fbx" "a.fbx" ["A", "no_thumbnail"] [],
        Event.setTimeout 100,
        Event.getById "id-a.fbx",
        Event.addLog "成功导入: id-a.fbx (ID: id-a.fbx)" "info",
        Event.addLog
          "导入失败: /root/A/main_assets - checkmainAssetsOthersDirectory is not defined"
          "error",
        Event.consoleError "导入失败:"] ∧
    ∀ (env : Env) (sel p : String) (i n : Nat) (command : String),
      env.checkmainAssetsOthersDirectory = checkmainAssetsOthersDirectory →
      Event.exec command ∉ (importMainAssetsFolder env sel p i n).events := by
  refine ⟨by decide, by decide, by decide, by decide, by decide, by decide, by decide, ?_⟩
  intro env sel p i n command hrepo hmem
  rw [← mem_execCommands, (importMainAssetsFolder_helper_undefined env sel p i n hrepo).1] at hmem
  exact List.not_mem_nil _ hmem

/-- C2: for every bundle with exactly one payload file whose sibling thumbnail directory is
absent or yields no image file, the tags handed to the host on import are those of the path
followed by `no_thumbnail`, and `importMainAssetsFolder` issues no command at all, so no
cleanup command. `import.js` runs no thumbnail generator, so this holds whatever a generator
would do, also when it fails. The code is the repository as it stands: the call of
`checkmainAssetsOthersDirectory`, which nothing defines, throws before the cleanup block. -/
theorem no_thumbnail_bundle_is_tagged_and_kept (env : Env) (sel p : String) (i n : Nat)
    (assetFile : String)
    (hrepo : env.checkmainAssetsOthersDirectory = checkmainAssetsOthersDirectory)
    (hone : payloadFiles env p = [assetFile])
    (hthumb : env.existsSync (pathJoin env.sep (pathDirname env.sep p) "thumbnail") = false ∨
      (payloadFiles env (pathJoin env.sep (pathDirname env.sep p) "thumbnail")).filter
        (isImageFile env.sep) = []) :
    importedTags (importMainAssetsFolder env sel p i n).events =
      [generateTagsFromPath env.sep env.cwd sel p ++ ["no_thumbnail"]] ∧
    (∃ path name folders,
      Event.addFromPath path name (generateTagsFromPath env.sep env.cwd sel p ++ ["no_thumbnail"])
        folders ∈ (importMainAssetsFolder env sel p i n).events) ∧
    (∀ path name tags folders,
      Event.addFromPath path name tags folders ∈ (importMainAssetsFolder env sel p i n).events →
        "no_thumbnail" ∈ tags) ∧
    ∀ command, Event.exec command ∉ (importMainAssetsFolder env sel p i n).events := by
  have hnone : thumbnailFiles env p = [] := by
    rw [thumbnailFiles_eq]
    rcases hthumb with h | h
    · simp [thumbnailDir, h]
    · simp [thumbnailDir, h]
  obtain ⟨_, _, _, htags⟩ := importMainAssetsFolder_spec env sel p i n
  have htags1 : importedTags (importMainAssetsFolder env sel p i n).events =
      [generateTagsFromPath env.sep env.cwd sel p ++ ["no_thumbnail"]] := by
    rw [htags, hone]
    simp [bundleTags, hnone]
  refine ⟨htags1, ?_, ?_, ?_⟩
  · rw [← mem_importedTags, htags1]
    exact List.mem_singleton_self _
  · intro path name tags folders hmem
    have h : tags ∈ importedTags (importMainAssetsFolder env sel p i n).events :=
      (mem_importedTags _ _).2 ⟨path, name, folders, hmem⟩
    rw [htags1, List.mem_singleton] at h
    rw [h]
    simp
  · intro command hmem
    rw [← mem_execCommands,
      (importMainAssetsFolder_helper_undefined env sel p i n hrepo).1] at hmem
    exact List.not_mem_nil _ hmem

set_option maxRecDepth 100000 in
/-- C2 at a concrete bundle: bundle `A` of `batchEnv`, one file `a.fbx` and no thumbnail
directory. Its file is handed to the host with the tags `A` and `no_thumbnail`, and no
command is issued. -/
theorem no_thumbnail_bundle_is_tagged_and_kept_witness :
    batchEnv.checkmainAssetsOthersDirectory = checkmainAssetsOthersDirectory ∧
    payloadFiles batchEnv "/root/A/main_assets" = ["a.fbx"] ∧
    batchEnv.existsSync "/root/A/thumbnail" = false ∧
    importedTags (importMainAssetsFolder batchEnv "/root" "/root/A/main_assets" 0 3).events =
      [["A", "no_thumbnail"]] ∧
    Event.addFromPath "/root/A/main_assets/a.fbx" "a.fbx" ["A", "no_thumbnail"] [] ∈
      (importMainAssetsFolder batchEnv "/root" "/root/A/main_assets" 0 3).events ∧
    ∀ command, Event.exec command ∉
      (importMainAssetsFolder batchEnv "/root" "/root/A/main_assets" 0 3).events :=
  have h := no_thumbnail_bundle_is_tagged_and_kept batchEnv "/root" "/root/A/main_assets" 0 3
    "a.fbx" rfl (by decide) (Or.inl (by decide))
  ⟨rfl, by decide, by decide, h.1.trans (by decide), by decide, h.2.2.2⟩

/-- C3: `importMainAssetsFolder` reaches the host's `addFromPath` only when the bundle
directory holds exactly one file. For a bundle whose file list is empty or has two or more
entries it logs a warning and returns: apart from the log lines (and the console line of a
failed listing) it does nothing, so no `addFromPath`, no thumbnail, no copy, no cleanup. -/
theorem invalid_bundle_is_skipped (env : Env) (sel p : String) (i n : Nat)
    (h : (payloadFiles env p).length ≠ 1) :
    (importMainAssetsFolder env sel p i n).result = .ok () ∧
    (importMainAssetsFolder env sel p i n).events =
      [Event.addLog ("处理: " ++ p) "info"] ++ (getFiles env p).events ++
        [Event.addLog
          (if payloadFiles env p = [] then "警告: " ++ p ++ " 目录为空"
            else "警告: " ++ p ++ " 目录包含多个文件!") "warning"] ∧
    ∀ e ∈ (importMainAssetsFolder env sel p i n).events,
      (∃ message type, e = Event.addLog message type) ∨
        ∃ message, e = Event.consoleError message := by
  have hev : (importMainAssetsFolder env sel p i n).result = .ok () ∧
      (importMainAssetsFolder env sel p i n).events =
      [Event.addLog ("处理: " ++ p) "info"] ++ (getFiles env p).events ++
        [Event.addLog
          (if payloadFiles env p = [] then "警告: " ++ p ++ " 目录为空"
            else "警告: " ++ p ++ " 目录包含多个文件!") "warning"] := by
    unfold importMainAssetsFolder importBody
    simp only [bind_eq_andThen]
    rw [andThen_ok (m := addLog _ _) _ rfl, andThen_ok _ (getFiles_result env p)]
    cases hpf : payloadFiles env p with
    | nil => simp [Run.tryCatch, addLog, emit]
    | cons assetFile more =>
      cases more with
      | nil => simp [hpf] at h
      | cons other more => simp [Run.tryCatch, addLog, emit]
  refine ⟨hev.1, hev.2, ?_⟩
  rw [hev.2]
  intro e he
  simp only [List.mem_append, List.mem_singleton] at he
  rcases he with (he | he) | he
  · exact .inl ⟨_, _, he⟩
  · rcases getFiles_events env p with hg | hg
    · simp [hg] at he
    · rw [hg] at he
      exact .inr ⟨_, List.mem_singleton.mp he⟩
  · exact .inl ⟨_, _, he⟩

set_option maxRecDepth 100000 in
/-- C3 at two concrete bundles: one with no file and one with two files. -/
theorem invalid_bundle_is_skipped_witness :
    ((payloadFiles emptyBundleEnv "/root/E/main_assets").length ≠ 1 ∧
      (importMainAssetsFolder emptyBundleEnv "/root" "/root/E/main_assets" 0 1).events =
        [Event.addLog "处理: /root/E/main_assets" "info",
          Event.addLog "警告: /root/E/main_assets 目录为空" "warning"]) ∧
    ((payloadFiles emptyBundleEnv "/root/D/main_assets").length ≠ 1 ∧
      (importMainAssetsFolder emptyBundleEnv "/root" "/root/D/main_assets" 0 1).events =
        [Event.addLog "处理: /root/D/main_assets" "info",
          Event.addLog "警告: /root/D/main_assets 目录包含多个文件!" "warning"]) :=
  ⟨⟨by decide,
      (invalid_bundle_is_skipped emptyBundleEnv "/root" "/root/E/main_assets" 0 1
        (by decide)).2.1.trans (by decide)⟩,
    ⟨by decide,
      (invalid_bundle_is_skipped emptyBundleEnv "/root" "/root/D/main_assets" 0 1
        (by decide)).2.1.trans (by decide)⟩⟩

/-! ## The batch -/

theorem importLoop_spec (env : Env) (sel : String) (n : Nat) (folders : List String) (k : Nat) :
    (importLoop env sel n folders k).result = .ok () ∧
      (importLoop env sel n folders k).events = bundleRuns env sel n folders k := by
  induction folders generalizing k with
  | nil => simp [importLoop, bundleRuns, pure_eq]
  | cons folder rest ih =>
    obtain ⟨hr, _⟩ := importMainAssetsFolder_spec env sel folder k n
    obtain ⟨ih1, ih2⟩ := ih (k + 1)
    simp only [importLoop, bind_eq_andThen]
    rw [andThen_ok _ hr]
    simp [ih1, ih2, bundleRuns, List.enumFrom_cons]

/-- The whole run of `startBatchImport` when it is free to start and the scan finds bundles. -/
theorem startBatchImport_spec (env : Env) (g : Globals) (hfree : g.isImporting = false)
    (hsel : g.selectedPath ≠ "") (hroot : env.existsSync g.selectedPath = true)
    (hfound : discoveredBundles env g.selectedPath ≠ []) :
    (startBatchImport env g).result = .ok { g with isImporting := false } ∧
    (startBatchImport env g).events =
      [Event.setDisabled "startImportBtn" true, Event.setDisabled "selectPathBtn" true,
        Event.showStatus "正在搜索main_assets文件夹..." "info", Event.clearLog,
        Event.showProgress]
      ++ scanConsole env g.selectedPath
      ++ [Event.showStatus ("找到 " ++ toString (discoveredBundles env g.selectedPath).length
            ++ " 个main_assets文件夹，开始导入...") "info",
          Event.addLog ("开始批量导入，共 "
            ++ toString (discoveredBundles env g.selectedPath).length ++ " 个文件夹") "info"]
      ++ bundleRuns env g.selectedPath (discoveredBundles env g.selectedPath).length
          (discoveredBundles env g.selectedPath) 0
      ++ [Event.showStatus ("批量导入完成！共处理 "
            ++ toString (discoveredBundles env g.selectedPath).length ++ " 个文件夹") "success",
          Event.addLog "批量导入完成！" "info",
          Event.setDisabled "startImportBtn" false, Event.setDisabled "selectPathBtn" false,
          Event.hideProgress] := by
  obtain ⟨l1, l2⟩ := importLoop_spec env g.selectedPath
    (discoveredBundles env g.selectedPath).length (discoveredBundles env g.selectedPath) 0
  have hlen : (discoveredBundles env g.selectedPath).length ≠ 0 := by
    simpa [List.length_eq_zero] using hfound
  have hbody : (startBatchImportBody env g.selectedPath).result = .ok () ∧
      (startBatchImportBody env g.selectedPath).events =
        [Event.showStatus "正在搜索main_assets文件夹..." "info", Event.clearLog,
          Event.showProgress]
        ++ scanConsole env g.selectedPath
        ++ [Event.showStatus ("找到 " ++ toString (discoveredBundles env g.selectedPath).length
              ++ " 个main_assets文件夹，开始导入...") "info",
            Event.addLog ("开始批量导入，共 "
              ++ toString (discoveredBundles env g.selectedPath).length ++ " 个文件夹") "info"]
        ++ bundleRuns env g.selectedPath (discoveredBundles env g.selectedPath).length
            (discoveredBundles env g.selectedPath) 0
        ++ [Event.showStatus ("批量导入完成！共处理 "
              ++ toString (discoveredBundles env g.selectedPath).length ++ " 个文件夹") "success",
            Event.addLog "批量导入完成！" "info"] := by
    unfold startBatchImportBody
    simp only [bind_eq_andThen]
    rw [andThen_ok (m := showStatus _ _) _ rfl, andThen_ok (m := emit _) _ rfl,
      andThen_ok (m := emit _) _ rfl,
      andThen_ok (m := findMainAssetsFolders _ _ _) (a := discoveredBundles env g.selectedPath)
        _ rfl]
    simp only [hlen, if_false]
    rw [andThen_ok (m := showStatus _ _) _ rfl, andThen_ok (m := addLog _ _) _ rfl,
      andThen_ok _ l1, andThen_ok (m := showStatus _ _) _ rfl]
    simp [l2, showStatus, addLog, emit, findMainAssetsFolders, scanConsole]
  obtain ⟨b1, b2⟩ := hbody
  unfold startBatchImport
  simp only [hfree, hsel, checkPathExists, hroot, Bool.false_eq_true, if_false, Bool.not_true,
    bind_eq_andThen]
  rw [andThen_ok (m := emit _) _ rfl, andThen_ok (m := emit _) _ rfl, tryCatch_ok _ b1]
  simp [Run.tryFinally, andThen, emit, pure_eq, b1, b2]

theorem importBody_error_of_exec_throws (env : Env) (sel p : String) (i n : Nat) (e : JsError)
    (hdel : deletable env sel p = true) (hexec : env.exec (bundleCleanup env p) = .error e) :
    (importBody env sel p i n).result = .error ⟨"parentFolder is not defined"⟩ := by
  obtain ⟨hres, _⟩ := importBody_spec env sel p i n
  rw [hres]
  have hE : bundleError env sel p = some ⟨"parentFolder is not defined"⟩ := by
    unfold deletable importedItem at hdel
    unfold bundleError
    cases hpf : payloadFiles env p with
    | nil => simp [hpf] at hdel
    | cons f more =>
      cases more with
      | cons f2 more2 => simp [hpf] at hdel
      | nil =>
        rw [hpf] at hdel
        simp only at hdel ⊢
        rcases except_cases (env.addFromPath (pathJoin env.sep p f) f (bundleTags env sel p)
          env.userFolders) with ⟨e1, hadd⟩ | ⟨itemId, hadd⟩
        · simp [hadd] at hdel
        · rw [hadd] at hdel ⊢
          simp only at hdel ⊢
          rcases except_cases (env.getById itemId) with ⟨e2, hget⟩ | ⟨item, hget⟩
          · simp [hget] at hdel
          · rw [hget] at hdel ⊢
            simp only [Bool.and_eq_true] at hdel ⊢
            rcases except_cases (env.checkmainAssetsOthersDirectory p) with ⟨e3, hchk⟩ | ⟨o, hchk⟩
            · simp [auxiliaryCopied, hchk] at hdel
            · simp [hchk, hdel.1, hdel.2, hexec]
  rw [hE]

/-- C4: for every list of discovered bundles and every behaviour of the host and file-system
calls, `importMainAssetsFolder` never throws: an exception that leaves its `try` block —
also the one raised inside the cleanup step's own error handler — is caught at the bundle
boundary and logged with the bundle path and the message; and `startBatchImport` calls
`importMainAssetsFolder` on every discovered bundle, once each, in discovery order, and
runs to its final status. -/
theorem bundle_failures_never_stop_the_batch (env : Env) (g : Globals)
    (hfree : g.isImporting = false) (hsel : g.selectedPath ≠ "")
    (hroot : env.existsSync g.selectedPath = true)
    (hfound : discoveredBundles env g.selectedPath ≠ []) :
    (∀ p i n, (importMainAssetsFolder env g.selectedPath p i n).result = .ok ()) ∧
    (∀ p i n e, (importBody env g.selectedPath p i n).result = .error e →
      (importMainAssetsFolder env g.selectedPath p i n).events =
        (importBody env g.selectedPath p i n).events ++
          [Event.addLog ("导入失败: " ++ p ++ " - " ++ e.message) "error",
            Event.consoleError "导入失败:"]) ∧
    (∀ p i n e, deletable env g.selectedPath p = true →
      env.exec (bundleCleanup env p) = .error e →
      (importBody env g.selectedPath p i n).result = .error ⟨"parentFolder is not defined"⟩) ∧
    (startBatchImport env g).result = .ok { g with isImporting := false } ∧
    (startBatchImport env g).events =
      [Event.setDisabled "startImportBtn" true, Event.setDisabled "selectPathBtn" true,
        Event.showStatus "正在搜索main_assets文件夹..." "info", Event.clearLog,
        Event.showProgress]
      ++ scanConsole env g.selectedPath
      ++ [Event.showStatus ("找到 " ++ toString (discoveredBundles env g.selectedPath).length
            ++ " 个main_assets文件夹，开始导入...") "info",
          Event.addLog ("开始批量导入，共 "
            ++ toString (discoveredBundles env g.selectedPath).length ++ " 个文件夹") "info"]
      ++ ((discoveredBundles env g.selectedPath).enum.flatMap fun entry =>
          (importMainAssetsFolder env g.selectedPath entry.2 entry.1
            (discoveredBundles env g.selectedPath).length).events)
      ++ [Event.showStatus ("批量导入完成！共处理 "
            ++ toString (discoveredBundles env g.selectedPath).length ++ " 个文件夹") "success",
          Event.addLog "批量导入完成！" "info",
          Event.setDisabled "startImportBtn" false, Event.setDisabled "selectPathBtn" false,
          Event.hideProgress] := by
  refine ⟨fun p i n => (importMainAssetsFolder_spec env _ p i n).1, ?_, ?_, ?_⟩
  · intro p i n e he
    unfold importMainAssetsFolder
    rw [tryCatch_error _ he]
    simp [bind_eq_andThen, andThen, addLog, emit]
  · intro p i n e hdel hexec
    exact importBody_error_of_exec_throws env _ p i n e hdel hexec
  · exact startBatchImport_spec env g hfree hsel hroot hfound

set_option maxRecDepth 100000 in
/-- C4 at a concrete batch: in `throwingEnv` the host call of bundle `A` and the `exec` of
bundle `B` throw; both are logged with path and message, and bundle `C` is still processed. -/
theorem bundle_failures_never_stop_the_batch_witness :
    discoveredBundles throwingEnv "/root" =
      ["/root/A/main_assets", "/root/B/main_assets", "/root/C/main_assets"] ∧
    (startBatchImport throwingEnv rootSelected).result = .ok rootSelected ∧
    Event.addLog "导入失败: /root/A/main_assets - host unavailable" "error" ∈
      (startBatchImport throwingEnv rootSelected).events ∧
    Event.addLog "导入失败: /root/B/main_assets - parentFolder is not defined" "error" ∈
      (startBatchImport throwingEnv rootSelected).events ∧
    Event.addFromPath "/root/C/main_assets/c.fbx" "c.fbx" ["C", "no_thumbnail"] [] ∈
      (startBatchImport throwingEnv rootSelected).events :=
  have h := bundle_failures_never_stop_the_batch throwingEnv rootSelected rfl (by decide)
    (by decide) (by decide)
  ⟨by decide, h.2.2.2.1, by rw [h.2.2.2.2]; decide, by rw [h.2.2.2.2]; decide,
    by rw [h.2.2.2.2]; decide⟩

/-- The scan writes nothing but console lines. -/
theorem scan_console (sep : Char) :
    (∀ node cur st, (∀ e ∈ st.console, ∃ m, e = Event.consoleError m) →
      ∀ e ∈ (searchRecursively sep node cur st).console, ∃ m, e = Event.consoleError m) ∧
    (∀ items cur st, (∀ e ∈ st.console, ∃ m, e = Event.consoleError m) →
      ∀ e ∈ (searchItems sep items cur st).1.console, ∃ m, e = Event.consoleError m) := by
  apply searchRecursively.mutual_induct sep
    (fun node cur st => (∀ e ∈ st.console, ∃ m, e = Event.consoleError m) →
      ∀ e ∈ (searchRecursively sep node cur st).console, ∃ m, e = Event.consoleError m)
    (fun items cur st => (∀ e ∈ st.console, ∃ m, e = Event.consoleError m) →
      ∀ e ∈ (searchItems sep items cur st).1.console, ∃ m, e = Event.consoleError m)
  · intro d cur st h e he
    simp only [searchRecursively, List.mem_append, List.mem_singleton] at he
    rcases he with he | he
    · exact h e he
    · exact ⟨_, he⟩
  · intro d items cur st st1 hs ih h e he
    simp only [searchRecursively, hs] at he
    have := ih h e
    rw [hs] at this
    exact this he
  · intro d items cur st st1 hs ih h e he
    simp only [searchRecursively, hs, List.mem_append, List.mem_singleton] at he
    rcases he with he | he
    · have := ih h e
      rw [hs] at this
      exact this he
    · exact ⟨_, he⟩
  · intro cur st h e he
    simp only [searchItems] at he
    exact h e he
  · intro item node rest cur st hd h e he
    simp only [searchItems, hd] at he
    exact h e he
  · intro node rest cur st hd ih h e he
    simp only [searchItems, hd, if_true] at he
    exact ih h e he
  · intro item node rest cur st hd hne ih1 ih2 h e he
    simp only [searchItems, hd, hne, if_false] at he
    exact ih2 (ih1 h) e he
  · intro item node rest cur st hd ih h e he
    simp only [searchItems, hd] at he
    exact ih h e he

theorem scanConsole_silent (env : Env) (sel : String) : Silent (scanConsole env sel) := by
  have h : ∀ e ∈ scanConsole env sel, ∃ m, e = Event.consoleError m :=
    (scan_console env.sep).1 env.tree sel ⟨[], []⟩ (by simp)
  generalize scanConsole env sel = events at h
  induction events with
  | nil => exact silent_nil
  | cons e es ih =>
    obtain ⟨m, hm⟩ := h e (List.mem_cons_self _ _)
    obtain ⟨a, b, c⟩ := ih (fun e he => h e (List.mem_cons_of_mem _ he))
    subst hm
    simp [Silent, execCommands_cons, progressReports_cons, importedTags_cons, a, b, c]

theorem mem_progressReports (current total : Nat) (events : List Event) :
    (current, total) ∈ progressReports events ↔ Event.updateProgress current total ∈ events := by
  induction events with
  | nil => simp
  | cons e es ih =>
    rw [progressReports_cons]
    cases e <;> simp [ih]

theorem execCommands_bundleRuns_helper_undefined (env : Env) (sel : String) (n : Nat)
    (folders : List String) (k : Nat)
    (hrepo : env.checkmainAssetsOthersDirectory = checkmainAssetsOthersDirectory) :
    execCommands (bundleRuns env sel n folders k) = [] := by
  induction folders generalizing k with
  | nil => simp [bundleRuns]
  | cons folder rest ih =>
    have ih1 := ih (k + 1)
    simp only [bundleRuns, List.enumFrom_cons, List.flatMap_cons, execCommands_append] at ih1 ⊢
    rw [ih1, (importMainAssetsFolder_helper_undefined env sel folder k n hrepo).1]
    rfl

theorem progressReports_bundleRuns_helper_undefined (env : Env) (sel : String) (n : Nat)
    (folders : List String) (k : Nat)
    (hrepo : env.checkmainAssetsOthersDirectory = checkmainAssetsOthersDirectory) :
    progressReports (bundleRuns env sel n folders k) = [] := by
  induction folders generalizing k with
  | nil => simp [bundleRuns]
  | cons folder rest ih =>
    have ih1 := ih (k + 1)
    simp only [bundleRuns, List.enumFrom_cons, List.flatMap_cons, progressReports_append] at ih1 ⊢
    rw [ih1, (importMainAssetsFolder_helper_undefined env sel folder k n hrepo).2]
    rfl

set_option maxRecDepth 100000 in
/-- C5, where the code departs from it: the batch of the claim, three bundles of which only
the second fails to attach its thumbnail. C5 has progress `1/3, 2/3, 3/3` reported and the
cleanup command issued for the first and the third bundle. The code reports no progress and
issues no command: in each bundle the call of `checkmainAssetsOthersDirectory`, a name the
repository never defines, throws after the import, past the cleanup block and the progress
report that ends the `try` block. It is so for every batch that finds a bundle; the final
status still counts every bundle as processed. Apart from that defect, a bundle that fails
validation returns before the progress report: a batch of one empty bundle reports nothing. -/
theorem batch_reports_no_progress_and_cleans_nothing :
    discoveredBundles batchEnv "/root" =
      ["/root/A/main_assets", "/root/B/main_assets", "/root/C/main_assets"] ∧
    (startBatchImport batchEnv rootSelected).events =
      [Event.setDisabled "startImportBtn" true,
        Event.setDisabled "selectPathBtn" true,
        Event.showStatus "正在搜索main_assets文件夹..." "info",
        Event.clearLog,
        Event.showProgress,
        Event.showStatus "找到 3 个main_assets文件夹，开始导入..." "info",
        Event.addLog "开始批量导入，共 3 个文件夹" "info",
        Event.addLog "处理: /root/A/main_assets" "info",
        Event.addLog "导入文件: a.fbx" "info",
        Event.addLog "标签: A, no_thumbnail" "info",
        Event.addFromPath "/root/A/main_assets/a.fbx" "a.fbx" ["A", "no_thumbnail"] [],
        Event.setTimeout 100,
        Event.getById "id-a.fbx",
        Event.addLog "成功导入: id-a.fbx (ID: id-a.fbx)" "info",
        Event.addLog
          "导入失败: /root/A/main_assets - checkmainAssetsOthersDirectory is not defined"
          "error",
        Event.consoleError "导入失败:",
        Event.addLog "处理: /root/B/main_assets" "info",
        Event.addLog "导入文件: b.fbx" "info",
        Event.addLog "标签: B" "info",
        Event.addFromPath "/root/B/main_assets/b.fbx" "b.fbx" ["B"] [],
        Event.setTimeout 100,
        Event.getById "id-b.fbx",
        Event.addLog "成功导入: id-b.fbx (ID: id-b.fbx)" "info",
        Event.setCustomThumbnail "id-b.fbx" "/root/B/thumbnail/b.PNG",
        Event.addLog "设置缩略图失败: thumbnail rejected" "error",
        Event.addLog
          "导入失败: /root/B/main_assets - checkmainAssetsOthersDirectory is not defined"
          "error",
        Event.consoleError "导入失败:",
        Event.addLog "处理: /root/C/main_assets" "info",
        Event.addLog "导入文件: c.fbx" "info",
        Event.addLog "标签: C, no_thumbnail" "info",
        Event.addFromPath "/root/C/main_assets/c.fbx" "c.fbx" ["C", "no_thumbnail"] [],
        Event.setTimeout 100,
        Event.getById "id-c.fbx",
        Event.addLog "成功导入: id-c.fbx (ID: id-c.fbx)" "info",
        Event.addLog
          "导入失败: /root/C/main_assets - checkmainAssetsOthersDirectory is not defined"
          "error",
        Event.consoleError "导入失败:",
        Event.showStatus "批量导入完成！共处理 3 个文件夹" "success",
        Event.addLog "批量导入完成！" "info",
        Event.setDisabled "startImportBtn" false,
        Event.setDisabled "selectPathBtn" false,
        Event.hideProgress] ∧
    progressReports (startBatchImport batchEnv rootSelected).events = [] ∧
    execCommands (startBatchImport batchEnv rootSelected).events = [] ∧
    (∀ (env : Env) (g : Globals),
      env.checkmainAssetsOthersDirectory = checkmainAssetsOthersDirectory →
      g.isImporting = false → g.selectedPath ≠ "" → env.existsSync g.selectedPath = true →
      discoveredBundles env g.selectedPath ≠ [] →
      (∀ current total,
        Event.updateProgress current total ∉ (startBatchImport env g).events) ∧
      (∀ command, Event.exec command ∉ (startBatchImport env g).events) ∧
      Event.showStatus ("批量导入完成！共处理 "
          ++ toString (discoveredBundles env g.selectedPath).length ++ " 个文件夹") "success" ∈
        (startBatchImport env g).events) ∧
    discoveredBundles emptyBundleEnv "/root" = ["/root/E/main_assets"] ∧
    (startBatchImport emptyBundleEnv rootSelected).events =
      [Event.setDisabled "startImportBtn" true,
        Event.setDisabled "selectPathBtn" true,
        Event.showStatus "正在搜索main_assets文件夹..." "info",
        Event.clearLog,
        Event.showProgress,
        Event.showStatus "找到 1 个main_assets文件夹，开始导入..." "info",
        Event.addLog "开始批量导入，共 1 个文件夹" "info",
        Event.addLog "处理: /root/E/main_assets" "info",
        Event.addLog "警告: /root/E/main_assets 目录为空" "warning",
        Event.showStatus "批量导入完成！共处理 1 个文件夹" "success",
        Event.addLog "批量导入完成！" "info",
        Event.setDisabled "startImportBtn" false,
        Event.setDisabled "selectPathBtn" false,
        Event.hideProgress] := by
  refine ⟨by decide, by decide, by decide, by decide, ?_, by decide, by decide⟩
  intro env g hrepo hfree hsel hroot hfound
  obtain ⟨_, hev⟩ := startBatchImport_spec env g hfree hsel hroot hfound
  obtain ⟨s1, s2, _⟩ := scanConsole_silent env g.selectedPath
  have hprog : progressReports (startBatchImport env g).events = [] := by
    rw [hev]
    simp only [progressReports_append, progressReports_bundleRuns_helper_undefined _ _ _ _ _ hrepo,
      s2, progressReports_cons, progressReports_nil, List.append_nil]
  have hexec : execCommands (startBatchImport env g).events = [] := by
    rw [hev]
    simp only [execCommands_append, execCommands_bundleRuns_helper_undefined _ _ _ _ _ hrepo,
      s1, execCommands_cons, execCommands_nil, List.append_nil]
  refine ⟨?_, ?_, ?_⟩
  · intro current total hmem
    rw [← mem_progressReports, hprog] at hmem
    exact List.not_mem_nil _ hmem
  · intro command hmem
    rw [← mem_execCommands, hexec] at hmem
    exact List.not_mem_nil _ hmem
  · rw [hev]
    simp

/-! ## Strings and paths -/

/-- The path model on inputs whose answers under Node's `path.posix` are known. -/
theorem path_model_examples :
    pathNormalize '/' "/a/b/../c//d/" = "/a/c/d/" ∧
    pathJoin '/' "/root/" "A" = "/root/A" ∧
    pathJoin '/' "../x/.." "A" = "../A" ∧
    pathRelative '/' "/cwd" "/a/b" "/a/b/c" = "c" ∧
    pathRelative '/' "/cwd" "/a/b" "/a/bc" = "../bc" ∧
    pathRelative '/' "/cwd" "/a/b" "/a" = ".." ∧
    pathRelative '/' "/cwd" "/" "/a" = "a" ∧
    pathRelative '/' "/cwd" "x" "x/A/main_assets" = "A/main_assets" ∧
    pathResolve '/' "/plugin/thumbnail" "get_thumbnail.ps1" =
      "/plugin/thumbnail/get_thumbnail.ps1" ∧
    pathDirname '/' "/root/A/main_assets" = "/root/A" ∧
    pathDirname '/' "a//b" = "a/" ∧
    pathDirname '/' "/a" = "/" ∧
    pathDirname '/' "a" = "." ∧
    ["a.PNG", ".png", "..png", "a.", "..", "...", "a.b.c", "x/y.z/"].map (pathExtname '/') =
      [".PNG", "", ".png", ".", "", ".", ".c", ".z"] := by
  decide

theorem splitChars_ne_nil (sep : Char) (xs : List Char) : splitChars sep xs ≠ [] := by
  cases xs with
  | nil => simp [splitChars]
  | cons c cs =>
    simp only [splitChars]
    split
    · simp
    · split <;> simp

theorem splitChars_of_not_mem (sep : Char) (xs : List Char) (h : sep ∉ xs) :
    splitChars sep xs = [xs] := by
  induction xs with
  | nil => rfl
  | cons c cs ih =>
    have hc : c ≠ sep := fun hc => h (hc ▸ List.mem_cons_self _ _)
    have hcs : sep ∉ cs := fun hcs => h (List.mem_cons_of_mem _ hcs)
    simp [splitChars, hc, ih hcs]

theorem splitChars_append (sep : Char) (xs ys : List Char) :
    splitChars sep (xs ++ sep :: ys) = splitChars sep xs ++ splitChars sep ys := by
  induction xs with
  | nil => simp [splitChars]
  | cons c cs ih =>
    by_cases hc : c = sep
    · simp [splitChars, hc, ih]
    · simp only [List.cons_append, splitChars, hc, if_false]
      show (match splitChars sep (cs ++ sep :: ys) with
        | [] => [[c]]
        | seg :: segs => (c :: seg) :: segs) = _
      rw [ih]
      cases h : splitChars sep cs with
      | nil => exact absurd h (splitChars_ne_nil sep cs)
      | cons seg segs => simp

theorem splitChars_sep_free (sep : Char) (xs : List Char) :
    ∀ seg ∈ splitChars sep xs, sep ∉ seg := by
  induction xs with
  | nil => simp [splitChars]
  | cons c cs ih =>
    by_cases hc : c = sep
    · intro seg hseg
      simp only [splitChars, hc, if_true, List.mem_cons] at hseg
      rcases hseg with h | h
      · simp [h]
      · exact ih seg h
    · intro seg hseg
      simp only [splitChars, hc, if_false] at hseg
      cases h : splitChars sep cs with
      | nil => exact absurd h (splitChars_ne_nil sep cs)
      | cons s ss =>
        rw [h] at hseg ih
        simp only [List.mem_cons] at hseg
        rcases hseg with h1 | h1
        · subst h1
          intro hmem
          simp only [List.mem_cons] at hmem
          rcases hmem with h2 | h2
          · exact hc h2.symm
          · exact ih s (List.mem_cons_self _ _) h2
        · exact ih seg (List.mem_cons_of_mem _ h1)

theorem jsSplit_append (sep : Char) (a b : String) :
    jsSplit (a ++ String.singleton sep ++ b) sep = jsSplit a sep ++ jsSplit b sep := by
  simp [jsSplit, splitChars_append]

theorem jsSplit_of_not_mem (sep : Char) (s : String) (h : sep ∉ s.data) :
    jsSplit s sep = [s] := by
  simp [jsSplit, splitChars_of_not_mem sep s.data h]

theorem jsSplit_sep_free (sep : Char) (p : String) : ∀ seg ∈ jsSplit p sep, sep ∉ seg.data := by
  intro seg hseg
  simp only [jsSplit, List.mem_map] at hseg
  obtain ⟨cs, hcs, rfl⟩ := hseg
  exact splitChars_sep_free sep p.data cs hcs

theorem jsSplit_jsJoin (sep : Char) (segs : List String) (hne : segs ≠ [])
    (hfree : ∀ seg ∈ segs, sep ∉ seg.data) : jsSplit (jsJoin sep segs) sep = segs := by
  induction segs with
  | nil => exact absurd rfl hne
  | cons s rest ih =>
    have hs : sep ∉ s.data := hfree s (List.mem_cons_self _ _)
    cases rest with
    | nil => simp [jsJoin, jsSplit_of_not_mem sep s hs]
    | cons t more =>
      have ih1 := ih (by simp) (fun seg h => hfree seg (List.mem_cons_of_mem _ h))
      rw [jsJoin, jsSplit_append, ih1, jsSplit_of_not_mem sep s hs]
      · rfl
      · simp

theorem normStep_valid (b : Bool) (stack : List String) (s : String)
    (h1 : s ≠ "") (h2 : s ≠ ".") (h3 : s ≠ "..") : normStep b stack s = s :: stack := by
  simp [normStep, h1, h2, h3]

/-- The segments `normalizeString` keeps are never empty and never `.`. -/
theorem foldl_normStep_kept (b : Bool) (segs stack : List String)
    (hstack : ∀ s ∈ stack, s ≠ "" ∧ s ≠ ".") :
    ∀ s ∈ segs.foldl (normStep b) stack, s ≠ "" ∧ s ≠ "." := by
  induction segs generalizing stack with
  | nil => simpa using hstack
  | cons x rest ih =>
    simp only [List.foldl_cons]
    apply ih
    intro s hs
    unfold normStep at hs
    split at hs
    · exact hstack s hs
    · next hx =>
      split at hs
      · cases stack with
        | nil =>
          cases b
          · simp at hs
          · simp only [if_true, List.mem_singleton] at hs
            subst hs
            decide
        | cons top more =>
          simp only at hs
          split at hs
          · split at hs
            · simp only [List.mem_cons] at hs
              rcases hs with h | h
              · subst h
                decide
              · exact hstack s (by simpa using h)
            · exact hstack s hs
          · exact hstack s (List.mem_cons_of_mem _ hs)
      · simp only [List.mem_cons] at hs
        rcases hs with h | h
        · subst h
          exact ⟨fun h => hx (.inl h), fun h => hx (.inr h)⟩
        · exact hstack s h

/-- Below the root, the segments kept are never `..` either. -/
theorem foldl_normStep_false_kept (segs stack : List String)
    (hstack : ∀ s ∈ stack, s ≠ "..") :
    ∀ s ∈ segs.foldl (normStep false) stack, s ≠ ".." := by
  induction segs generalizing stack with
  | nil => simpa using hstack
  | cons x rest ih =>
    simp only [List.foldl_cons]
    apply ih
    intro s hs
    unfold normStep at hs
    split at hs
    · exact hstack s hs
    · split at hs
      · cases stack with
        | nil => simp at hs
        | cons top more =>
          simp only at hs
          split at hs
          · simp only [Bool.false_eq_true, if_false] at hs
            exact hstack s hs
          · exact hstack s (List.mem_cons_of_mem _ hs)
      · next hx =>
        simp only [List.mem_cons] at hs
        rcases hs with h | h
        · subst h
          exact hx
        · exact hstack s h

/-- The segments kept come from the input or are `..`. -/
theorem foldl_normStep_mem (b : Bool) (segs stack : List String) :
    ∀ s ∈ segs.foldl (normStep b) stack, s ∈ stack ∨ s ∈ segs ∨ s = ".." := by
  induction segs generalizing stack with
  | nil => intro s hs; exact .inl hs
  | cons x rest ih =>
    intro s hs
    simp only [List.foldl_cons] at hs
    rcases ih _ s hs with h | h | h
    · unfold normStep at h
      split at h
      · exact .inl h
      · split at h
        · cases stack with
          | nil =>
            cases b
            · simp at h
            · simp only [if_true, List.mem_singleton] at h
              exact .inr (.inr h)
          | cons top more =>
            simp only at h
            split at h
            · split at h
              · simp only [List.mem_cons] at h
                rcases h with h | h
                · exact .inr (.inr h)
                · exact .inl (by simpa using h)
              · exact .inl h
            · exact .inl (List.mem_cons_of_mem _ h)
        · simp only [List.mem_cons] at h
          rcases h with h | h
          · exact .inr (.inl (h ▸ List.mem_cons_self _ _))
          · exact .inl h
    · exact .inr (.inl (List.mem_cons_of_mem _ h))
    · exact .inr (.inr h)

/-- Segments that are names are all kept, in order. -/
theorem foldl_normStep_names (b : Bool) (segs stack : List String)
    (h : ∀ s ∈ segs, s ≠ "" ∧ s ≠ "." ∧ s ≠ "..") :
    segs.foldl (normStep b) stack = segs.reverse ++ stack := by
  induction segs generalizing stack with
  | nil => rfl
  | cons x rest ih =>
    obtain ⟨h1, h2, h3⟩ := h x (List.mem_cons_self _ _)
    simp only [List.foldl_cons, normStep_valid b stack x h1 h2 h3]
    rw [ih _ (fun s hs => h s (List.mem_cons_of_mem _ hs))]
    simp

/-- Normalising a relative path first does not change what it resolves to. -/
theorem foldl_normStep_normalized (xs stack : List String) :
    (xs.foldl (normStep true) []).reverse.foldl (normStep false) stack =
      xs.foldl (normStep false) stack := by
  induction xs using List.reverseRecOn with
  | nil => rfl
  | append_singleton xs x ih =>
    simp only [List.foldl_append, List.foldl_cons, List.foldl_nil]
    rw [← ih]
    have hkept := foldl_normStep_kept true xs [] (by simp)
    generalize xs.foldl (normStep true) [] = kept at hkept ⊢
    by_cases hx : x = "" ∨ x = "."
    · simp [normStep, hx]
    · by_cases hx2 : x = ".."
      · subst hx2
        cases kept with
        | nil => simp [normStep]
        | cons top more =>
          by_cases htop : top = ".."
          · simp [normStep, htop]
          · obtain ⟨t1, t2⟩ := hkept top (List.mem_cons_self _ _)
            have hpush : normStep false (List.foldl (normStep false) stack more.reverse) top =
                top :: List.foldl (normStep false) stack more.reverse :=
              normStep_valid _ _ _ t1 t2 htop
            have hleft : normStep true (top :: more) ".." = more := by
              simp [normStep, htop]
            rw [hleft]
            simp only [List.reverse_cons, List.foldl_append, List.foldl_cons, List.foldl_nil,
              hpush]
            simp [normStep, htop]
      · have h1 : x ≠ "" := fun h => hx (.inl h)
        have h2 : x ≠ "." := fun h => hx (.inr h)
        rw [normStep_valid true kept x h1 h2 hx2]
        simp

theorem data_ne_nil {s : String} (h : s ≠ "") : s.data ≠ [] := by
  intro hd
  apply h
  exact String.ext hd

theorem jsJoin_snoc_data (sep : Char) (xs : List String) (s : String) :
    ∃ pre, (jsJoin sep (xs ++ [s])).data = pre ++ s.data := by
  induction xs with
  | nil => exact ⟨[], by simp [jsJoin]⟩
  | cons x rest ih =>
    obtain ⟨pre, hpre⟩ := ih
    cases hrest : rest ++ [s] with
    | nil => simp at hrest
    | cons y more =>
      refine ⟨x.data ++ [sep] ++ pre, ?_⟩
      rw [List.cons_append, hrest, jsJoin, ← hrest]
      · simp [hpre]
      · simp

theorem jsJoin_cons_data (sep : Char) (x : String) (rest : List String) :
    ∃ post, (jsJoin sep (x :: rest)).data = x.data ++ post := by
  cases rest with
  | nil => exact ⟨[], by simp [jsJoin]⟩
  | cons y more => exact ⟨[sep] ++ (jsJoin sep (y :: more)).data, by simp [jsJoin]⟩

theorem isAbsolute_append (sep : Char) (a t : String) (ha : a ≠ "") :
    isAbsolute sep (a ++ t) = isAbsolute sep a := by
  have hd := data_ne_nil ha
  cases h : a.data with
  | nil => exact absurd h hd
  | cons c cs => simp [isAbsolute, h]

theorem not_absolute_of_valid (sep : Char) (s : String) (hs : ValidName sep s) :
    isAbsolute sep s = false := by
  obtain ⟨h1, h2, _, _⟩ := hs
  cases h : s.data with
  | nil => simp [isAbsolute, h]
  | cons c cs =>
    have : c ≠ sep := fun hc => h2 (by rw [h, hc]; exact List.mem_cons_self _ _)
    simp [isAbsolute, h, this]

theorem getLast?_append_valid (sep : Char) (pre : List Char) (s : String) (hs : ValidName sep s) :
    (pre ++ s.data).getLast? ≠ some sep := by
  obtain ⟨h1, h2, _, _⟩ := hs
  have hd := data_ne_nil h1
  rw [List.getLast?_append_of_ne_nil _ hd]
  intro h
  exact h2 (List.mem_of_getLast?_eq_some h)

theorem jsJoin_snoc_ne_empty (sep : Char) (xs : List String) (s : String) (hs : s ≠ "") :
    jsJoin sep (xs ++ [s]) ≠ "" := by
  obtain ⟨pre, hpre⟩ := jsJoin_snoc_data sep xs s
  intro h
  rw [h] at hpre
  have := data_ne_nil hs
  cases hd : s.data with
  | nil => exact this hd
  | cons c cs => simp [hd] at hpre

/-- What `path.normalize` makes of `a/s` for a name `s`: the kept segments of `a`, then `s`. -/
theorem pathNormalize_join (sep : Char) (a s : String) (ha : a ≠ "") (hs : ValidName sep s) :
    pathNormalize sep (a ++ String.singleton sep ++ s) =
      (if isAbsolute sep a then String.singleton sep else "") ++
        jsJoin sep (((jsSplit a sep).foldl (normStep (!isAbsolute sep a)) []).reverse ++ [s]) := by
  have hp : a ++ String.singleton sep ++ s ≠ "" := by
    intro h
    have := congrArg String.data h
    simp only [String.data_append, String.data_singleton] at this
    simp at this
  have habs : isAbsolute sep (a ++ String.singleton sep ++ s) = isAbsolute sep a := by
    rw [String.append_assoc]
    exact isAbsolute_append sep a _ ha
  have htrail : ¬ ((a ++ String.singleton sep ++ s).data.getLast? = some sep) := by
    simp only [String.data_append]
    exact getLast?_append_valid sep _ s hs
  have hsplit : jsSplit (a ++ String.singleton sep ++ s) sep = jsSplit a sep ++ [s] := by
    rw [jsSplit_append, jsSplit_of_not_mem sep s hs.2.1]
  have hnorm : normalizeString (!isAbsolute sep a) (jsSplit a sep ++ [s]) =
      ((jsSplit a sep).foldl (normStep (!isAbsolute sep a)) []).reverse ++ [s] := by
    simp [normalizeString, List.foldl_append, normStep_valid _ _ s hs.1 hs.2.2.1 hs.2.2.2]
  have hne := jsJoin_snoc_ne_empty sep
    ((jsSplit a sep).foldl (normStep (!isAbsolute sep a)) []).reverse s hs.1
  unfold pathNormalize
  simp only [hp, if_false, habs, hsplit, hnorm, hne, htrail, decide_False, Bool.false_eq_true]
  cases isAbsolute sep a <;> simp

theorem jsSplit_singleton_append (sep : Char) (t : String) :
    jsSplit (String.singleton sep ++ t) sep = "" :: jsSplit t sep := by
  simp [jsSplit, splitChars]

/-- Resolving `path.join(a, s)` for a name `s` gives the segments of `a` resolved, then `s`. -/
theorem resolveSegs_pathJoin (sep : Char) (cwd a s : String) (hdot : sep ≠ '.')
    (hs : ValidName sep s) :
    resolveSegs sep cwd (pathJoin sep a s) = resolveSegs sep cwd a ++ [s] := by
  obtain ⟨hs1, hs2, hs3, hs4⟩ := hs
  have hnotabs : isAbsolute sep s = false := not_absolute_of_valid sep s ⟨hs1, hs2, hs3, hs4⟩
  have hsplitS : jsSplit s sep = [s] := jsSplit_of_not_mem sep s hs2
  have hdd : sep ∉ "..".data := by
    intro h
    simp only [List.mem_cons] at h
    rcases h with h | h | h
    · exact hdot h
    · exact hdot h
    · simp at h
  by_cases ha : a = ""
  · -- `path.join("", s)` is `path.normalize(s)`, which is `s`
    subst ha
    have hnorm : pathNormalize sep s = s := by
      unfold pathNormalize
      have htrail : ¬ (s.data.getLast? = some sep) := by
        have := getLast?_append_valid sep [] s ⟨hs1, hs2, hs3, hs4⟩
        simpa using this
      simp [hs1, hnotabs, hsplitS, normalizeString, normStep_valid _ _ s hs1 hs3 hs4, jsJoin,
        htrail]
    simp only [pathJoin, hs1, if_true, if_false, hnorm]
    unfold resolveSegs
    simp only [hnotabs, Bool.false_eq_true, if_false]
    have hempty : isAbsolute sep "" = false := by simp [isAbsolute]
    simp only [hempty, Bool.false_eq_true, if_false]
    rw [jsSplit_append, jsSplit_append, hsplitS]
    have he : jsSplit "" sep = [""] := by simp [jsSplit, splitChars]
    simp only [he, normalizeString, List.foldl_append, List.foldl_cons, List.foldl_nil,
      normStep_valid _ _ s hs1 hs3 hs4]
    simp [normStep]
  · simp only [pathJoin, ha, hs1, if_false]
    rw [pathNormalize_join sep a s ha ⟨hs1, hs2, hs3, hs4⟩]
    have hkept := foldl_normStep_kept (!isAbsolute sep a) (jsSplit a sep) [] (by simp)
    have hfree : ∀ seg ∈ ((jsSplit a sep).foldl (normStep (!isAbsolute sep a)) []).reverse ++ [s],
        sep ∉ seg.data := by
      intro seg hseg
      simp only [List.mem_append, List.mem_reverse, List.mem_singleton] at hseg
      rcases hseg with h | h
      · rcases foldl_normStep_mem _ _ _ seg h with h1 | h1 | h1
        · simp at h1
        · exact jsSplit_sep_free sep a seg h1
        · rw [h1]; exact hdd
      · rw [h]; exact hs2
    have hsplitJ := jsSplit_jsJoin sep
      (((jsSplit a sep).foldl (normStep (!isAbsolute sep a)) []).reverse ++ [s]) (by simp) hfree
    cases habs : isAbsolute sep a with
    | true =>
      rw [habs] at hsplitJ hkept hfree
      simp only [if_true, Bool.not_true]
      have hq : isAbsolute sep (String.singleton sep ++
          jsJoin sep (((jsSplit a sep).foldl (normStep false) []).reverse ++ [s])) = true := by
        simp [isAbsolute]
      unfold resolveSegs
      simp only [hq, habs, if_true]
      simp only [Bool.not_true] at hsplitJ hkept
      rw [jsSplit_singleton_append, hsplitJ]
      have hnames : ∀ t ∈ ((jsSplit a sep).foldl (normStep false) []).reverse ++ [s],
          t ≠ "" ∧ t ≠ "." ∧ t ≠ ".." := by
        intro t ht
        simp only [List.mem_append, List.mem_reverse, List.mem_singleton] at ht
        rcases ht with h | h
        · exact ⟨(hkept t h).1, (hkept t h).2,
            foldl_normStep_false_kept (jsSplit a sep) [] (by simp) t h⟩
        · rw [h]; exact ⟨hs1, hs3, hs4⟩
      simp only [normalizeString, List.foldl_cons]
      have h0 : normStep false [] "" = [] := by simp [normStep]
      rw [h0, foldl_normStep_names false _ [] hnames]
      simp
    | false =>
      rw [habs] at hsplitJ hkept hfree
      simp only [Bool.not_false] at hsplitJ hkept hfree
      simp only [Bool.false_eq_true, if_false, Bool.not_false]
      have hJ : ("" : String) ++ jsJoin sep
          (((jsSplit a sep).foldl (normStep true) []).reverse ++ [s]) =
          jsJoin sep (((jsSplit a sep).foldl (normStep true) []).reverse ++ [s]) := by
        simp
      rw [hJ]
      -- the joined path does not start with the separator
      have hq : isAbsolute sep (jsJoin sep
          (((jsSplit a sep).foldl (normStep true) []).reverse ++ [s])) = false := by
        cases hl : ((jsSplit a sep).foldl (normStep true) []).reverse ++ [s] with
        | nil => simp at hl
        | cons x rest =>
          obtain ⟨post, hpost⟩ := jsJoin_cons_data sep x rest
          have hx : x ∈ ((jsSplit a sep).foldl (normStep true) []).reverse ++ [s] := by
            rw [hl]; exact List.mem_cons_self _ _
          have hxfree := hfree x hx
          have hxne : x ≠ "" := by
            simp only [List.mem_append, List.mem_reverse, List.mem_singleton] at hx
            rcases hx with h | h
            · exact (hkept x h).1
            · rw [h]; exact hs1
          have hxd := data_ne_nil hxne
          cases hxdata : x.data with
          | nil => exact absurd hxdata hxd
          | cons c cs =>
            have hc : c ≠ sep := fun hc => hxfree (by rw [hxdata, hc]; exact List.mem_cons_self _ _)
            simp [isAbsolute, hpost, hxdata, hc]
      unfold resolveSegs
      simp only [hq, habs, Bool.false_eq_true, if_false]
      rw [jsSplit_append, jsSplit_append, hsplitJ]
      simp only [normalizeString, List.foldl_append, List.foldl_cons, List.foldl_nil]
      rw [foldl_normStep_normalized]
      rw [normStep_valid _ _ s hs1 hs3 hs4]
      simp

theorem resolveSegs_foldl_pathJoin (sep : Char) (cwd root : String) (segs : List String)
    (hdot : sep ≠ '.') (hsegs : ∀ s ∈ segs, ValidName sep s) :
    resolveSegs sep cwd (segs.foldl (pathJoin sep) root) = resolveSegs sep cwd root ++ segs := by
  induction segs generalizing root with
  | nil => simp
  | cons s rest ih =>
    simp only [List.foldl_cons]
    rw [ih _ (fun t ht => hsegs t (List.mem_cons_of_mem _ ht)),
      resolveSegs_pathJoin sep cwd root s hdot (hsegs s (List.mem_cons_self _ _))]
    simp

theorem dropCommon_append (xs ys : List String) : dropCommon xs (xs ++ ys) = ([], ys) := by
  induction xs with
  | nil => cases ys <;> rfl
  | cons x rest ih => simp [dropCommon, ih]

theorem sep_ne_dot {sep : Char} (hsep : sep = '/' ∨ sep = '\\') : sep ≠ '.' := by
  rcases hsep with h | h <;> subst h <;> decide

theorem validName_main_assets {sep : Char} (hsep : sep = '/' ∨ sep = '\\') :
    ValidName sep "main_assets" := by
  rcases hsep with h | h <;> subst h <;> exact ⟨by decide, by decide, by decide, by decide⟩

/-- The path of a bundle relative to the root it lies under: the names from the root to it. -/
theorem pathRelative_of_descendant (sep : Char) (cwd root : String) (segs : List String)
    (hdot : sep ≠ '.') (hsegs : ∀ s ∈ segs, ValidName sep s) (hne : segs ≠ []) :
    pathRelative sep cwd root (segs.foldl (pathJoin sep) root) = jsJoin sep segs := by
  have hres := resolveSegs_foldl_pathJoin sep cwd root segs hdot hsegs
  have hdiff : root ≠ segs.foldl (pathJoin sep) root := by
    intro h
    rw [← h] at hres
    have := congrArg List.length hres
    simp only [List.length_append] at this
    have hpos : 0 < segs.length := List.length_pos.mpr hne
    omega
  unfold pathRelative
  simp only [hdiff, if_false, hres, dropCommon_append]
  simp

theorem filter_isTagPart_idem (parts : List String) :
    (parts.filter isTagPart).filter isTagPart = parts.filter isTagPart := by
  simp

theorem not_mem_filter_isTagPart (parts : List String) :
    "" ∉ parts.filter isTagPart ∧ "main_assets" ∉ parts.filter isTagPart := by
  constructor <;> simp [isTagPart]

/-- C6: for every root path and every sequence of directory names `s1 … sn` that are not
empty, hold no path separator and are none of `.`, `..` and `main_assets`,
`generateTagsFromPath` applied to `root/s1/…/sn/main_assets` with that root selected
returns exactly `[s1, …, sn]`, outermost first. Whatever the path, the result holds neither
the empty string nor `main_assets`, and filtering it again leaves it unchanged. -/
theorem tags_are_the_directories_between_root_and_bundle (sep : Char) (cwd root : String)
    (segs : List String) (hsep : sep = '/' ∨ sep = '\\')
    (hsegs : ∀ s ∈ segs,
      s ≠ "" ∧ sep ∉ s.data ∧ s ≠ "." ∧ s ≠ ".." ∧ s ≠ "main_assets") :
    generateTagsFromPath sep cwd root ((segs ++ ["main_assets"]).foldl (pathJoin sep) root) =
      segs ∧
    ∀ filePath,
      "" ∉ generateTagsFromPath sep cwd root filePath ∧
      "main_assets" ∉ generateTagsFromPath sep cwd root filePath ∧
      (generateTagsFromPath sep cwd root filePath).filter isTagPart =
        generateTagsFromPath sep cwd root filePath := by
  have hdot := sep_ne_dot hsep
  have hmain := validName_main_assets hsep
  have hvalid : ∀ s ∈ segs ++ ["main_assets"], ValidName sep s := by
    intro s hs
    simp only [List.mem_append, List.mem_singleton] at hs
    rcases hs with h | h
    · obtain ⟨h1, h2, h3, h4, _⟩ := hsegs s h
      exact ⟨h1, h2, h3, h4⟩
    · rw [h]; exact hmain
  constructor
  · unfold generateTagsFromPath
    simp only
    rw [pathRelative_of_descendant sep cwd root _ hdot hvalid (by simp),
      jsSplit_jsJoin sep _ (by simp) (fun s hs => (hvalid s hs).2.1)]
    rw [List.filter_append]
    have h1 : segs.filter isTagPart = segs := by
      rw [List.filter_eq_self]
      intro s hs
      obtain ⟨h1, _, _, _, h5⟩ := hsegs s hs
      simp [isTagPart, h1, h5]
    have h2 : ["main_assets"].filter isTagPart = [] := by decide
    rw [h1, h2, List.append_nil]
  · intro filePath
    unfold generateTagsFromPath
    exact ⟨(not_mem_filter_isTagPart _).1, (not_mem_filter_isTagPart _).2,
      filter_isTagPart_idem _⟩

/-- C6 at the path of the claim: `root/A/B/main_assets` gives `["A", "B"]`. -/
theorem tags_are_the_directories_between_root_and_bundle_witness :
    generateTagsFromPath '/' "/" "/root" "/root/A/B/main_assets" = ["A", "B"] :=
  (tags_are_the_directories_between_root_and_bundle '/' "/" "/root" ["A", "B"] (.inl rfl)
    (by decide)).1

/-! ## The scan -/

theorem descendants_names_ne_nil :
    (∀ node : FsNode, ∀ entry ∈ node.descendants, entry.1 ≠ []) ∧
    (∀ items : List (String × FsNode), ∀ entry ∈ descendantsOfItems items, entry.1 ≠ []) := by
  apply FsNode.descendants.mutual_induct
    (fun node => ∀ entry ∈ node.descendants, entry.1 ≠ [])
    (fun items => ∀ entry ∈ descendantsOfItems items, entry.1 ≠ [])
  · intro d entry h
    simp [FsNode.descendants] at h
  · intro d items ih entry h
    rw [FsNode.descendants] at h
    exact ih entry h
  · intro entry h
    simp [descendantsOfItems] at h
  · intro name node rest ih1 ih2 entry h
    simp only [descendantsOfItems, List.cons_append, List.mem_cons, List.mem_append,
      List.mem_map] at h
    rcases h with h | ⟨e, _, h⟩ | h
    · rw [h]; simp
    · rw [← h]; simp
    · exact ih2 entry h

theorem isMarker_cons (name : String) (segs : List String) (node : FsNode) (hne : segs ≠ []) :
    isMarker (name :: segs, node) = (decide (name ≠ "main_assets") && isMarker (segs, node)) := by
  cases segs with
  | nil => exact absurd rfl hne
  | cons s rest =>
    simp only [isMarker, List.getLast?_cons_cons, List.dropLast_cons₂, List.contains_cons]
    by_cases h : name = "main_assets"
    · subst h
      simp
    · have hbeq : ("main_assets" == name) = false := by
        simp only [beq_eq_false_iff_ne, ne_eq]
        exact fun h2 => h h2.symm
      simp [h, hbeq]

theorem isMarker_singleton (name : String) (node : FsNode) :
    isMarker ([name], node) =
      (decide (node.isDirectory = some true) && decide (name = "main_assets")) := by
  simp [isMarker]

theorem markerPaths_append (sep : Char) (cur : String) (xs ys : List (List String × FsNode)) :
    markerPaths sep cur (xs ++ ys) = markerPaths sep cur xs ++ markerPaths sep cur ys := by
  simp [markerPaths]

theorem markerPaths_cons (sep : Char) (cur : String) (e : List String × FsNode)
    (es : List (List String × FsNode)) :
    markerPaths sep cur (e :: es) =
      (if isMarker e then [e.1.foldl (pathJoin sep) cur] else []) ++ markerPaths sep cur es := by
  cases h : isMarker e <;> simp [markerPaths, h]

/-- Below a directory named `main_assets` nothing is collected; below any other directory
what is collected is what is collected from that directory's own path. -/
theorem markerPaths_below (sep : Char) (cur name : String) (node : FsNode) :
    markerPaths sep cur (node.descendants.map fun entry => (name :: entry.1, entry.2)) =
      if name = "main_assets" then []
      else markerPaths sep (pathJoin sep cur name) node.descendants := by
  have hne := descendants_names_ne_nil.1 node
  generalize node.descendants = entries at hne
  induction entries with
  | nil => simp [markerPaths]
  | cons e rest ih =>
    have he : e.1 ≠ [] := hne e (List.mem_cons_self _ _)
    have ih1 := ih (fun x hx => hne x (List.mem_cons_of_mem _ hx))
    simp only [markerPaths, List.map_cons, List.filter_cons, isMarker_cons name e.1 e.2 he]
      at ih1 ⊢
    by_cases hname : name = "main_assets"
    · simp only [hname, ne_eq, not_true_eq_false, decide_False, Bool.false_and,
        Bool.false_eq_true, if_false, if_true] at ih1 ⊢
      exact ih1
    · simp only [hname, ne_eq, not_false_eq_true, decide_True, Bool.true_and, if_false] at ih1 ⊢
      cases hm : isMarker (e.1, e.2) with
      | false =>
        have hm2 : isMarker e = false := hm
        simp only [Bool.false_eq_true, if_false, hm2]
        exact ih1
      | true =>
        have hm2 : isMarker e = true := hm
        simp only [if_true, hm2, List.map_cons, List.foldl_cons, ih1]

theorem readable_cases (node : FsNode) (h : node.readable = true) :
    (node.isDirectory = some true ∧ node.readableRoot = true) ∨
      (node.isDirectory = some false ∧ node.descendants = []) := by
  cases node with
  | mk d es =>
    cases d with
    | none => simp [FsNode.readable] at h
    | some b =>
      cases b with
      | true =>
        cases es with
        | none => simp [FsNode.readable] at h
        | some items =>
          left
          simp only [FsNode.readable] at h
          exact ⟨rfl, by simp [FsNode.readableRoot, h]⟩
      | false =>
        cases es with
        | none => right; exact ⟨rfl, by simp [FsNode.descendants]⟩
        | some items => simp [FsNode.readable] at h

/-- On a fully readable tree the scan adds to its array exactly the paths the spec names,
and writes nothing to the console. -/
theorem scan_readable (sep : Char) :
    (∀ node cur st, node.readableRoot = true →
      searchRecursively sep node cur st =
        ⟨st.mainAssetsFolders ++ markerPaths sep cur node.descendants, st.console⟩) ∧
    (∀ items cur st, readableItems items = true →
      searchItems sep items cur st =
        (⟨st.mainAssetsFolders ++ markerPaths sep cur (descendantsOfItems items), st.console⟩,
          false)) := by
  apply searchRecursively.mutual_induct sep
    (fun node cur st => node.readableRoot = true →
      searchRecursively sep node cur st =
        ⟨st.mainAssetsFolders ++ markerPaths sep cur node.descendants, st.console⟩)
    (fun items cur st => readableItems items = true →
      searchItems sep items cur st =
        (⟨st.mainAssetsFolders ++ markerPaths sep cur (descendantsOfItems items), st.console⟩,
          false))
  · intro d cur st h
    simp [FsNode.readableRoot] at h
  · intro d items cur st st1 hs ih h
    have h2 := ih (by simpa [FsNode.readableRoot] using h)
    rw [hs] at h2
    simp only [Prod.mk.injEq, and_true] at h2
    simp only [searchRecursively, hs, FsNode.descendants, h2]
  · intro d items cur st st1 hs ih h
    have h2 := ih (by simpa [FsNode.readableRoot] using h)
    rw [hs] at h2
    simp at h2
  · intro cur st _
    simp [searchItems, descendantsOfItems, markerPaths]
  · intro item node rest cur st hd h
    simp only [readableItems, Bool.and_eq_true] at h
    rcases readable_cases node h.1 with ⟨h1, _⟩ | ⟨h1, _⟩ <;> simp [hd] at h1
  · intro node rest cur st hd ih h
    simp only [readableItems, Bool.and_eq_true] at h
    have h2 := ih h.2
    simp only [searchItems, hd, if_true, h2, descendantsOfItems, List.cons_append,
      markerPaths_cons, markerPaths_append, markerPaths_below, isMarker_singleton]
    simp
  · intro item node rest cur st hd hne ih1 ih2 h
    simp only [readableItems, Bool.and_eq_true] at h
    have hroot : node.readableRoot = true := by
      rcases readable_cases node h.1 with ⟨_, h1⟩ | ⟨h1, _⟩
      · exact h1
      · simp [hd] at h1
    have h1 := ih1 hroot
    have h2 := ih2 h.2
    rw [h1] at h2
    simp only [searchItems, hd, hne, if_false, h1, h2, descendantsOfItems, List.cons_append,
      markerPaths_cons, markerPaths_append, markerPaths_below, isMarker_singleton]
    simp [hne]
  · intro item node rest cur st hd ih h
    simp only [readableItems, Bool.and_eq_true] at h
    have hdesc : node.descendants = [] := by
      rcases readable_cases node h.1 with ⟨h1, _⟩ | ⟨_, h1⟩
      · simp [hd] at h1
      · exact h1
    have h2 := ih h.2
    simp only [searchItems, hd, h2, descendantsOfItems, hdesc, List.map_nil, List.cons_append,
      List.nil_append, markerPaths_cons, isMarker_singleton]
    simp

theorem contains_iff_mem (l : List String) (a : String) : l.contains a = true ↔ a ∈ l :=
  List.elem_iff

theorem mem_markerPaths (sep : Char) (cur p : String) (entries : List (List String × FsNode)) :
    p ∈ markerPaths sep cur entries ↔
      ∃ names node, (names, node) ∈ entries ∧ node.isDirectory = some true ∧
        names.getLast? = some "main_assets" ∧ "main_assets" ∉ names.dropLast ∧
        p = names.foldl (pathJoin sep) cur := by
  simp only [markerPaths, List.mem_map, List.mem_filter, isMarker, Bool.and_eq_true,
    decide_eq_true_eq, Bool.not_eq_true']
  constructor
  · rintro ⟨⟨names, node⟩, ⟨hmem, ⟨h1, h2⟩, h3⟩, rfl⟩
    refine ⟨names, node, hmem, h1, h2, ?_, rfl⟩
    intro hin
    have : names.dropLast.contains "main_assets" = true := (contains_iff_mem _ _).mpr hin
    simp only at h3
    rw [h3] at this
    exact Bool.false_ne_true this
  · rintro ⟨names, node, hmem, h1, h2, h3, rfl⟩
    refine ⟨(names, node), ⟨hmem, ⟨h1, h2⟩, ?_⟩, rfl⟩
    cases hc : names.dropLast.contains "main_assets" with
    | false => rfl
    | true => exact absurd ((contains_iff_mem _ _).mp hc) h3

/-- C8: for every finite, fully readable directory tree, `findMainAssetsFolders(root)`
returns exactly the full paths of the directories whose name is exactly `main_assets` and
that are reached from the root without passing through another directory named
`main_assets`, in depth-first listing order, and it logs no failure. Every returned path is
that of such a directory, so a file or a directory of any other name is never returned; and
since the scan never descends into a matched directory, no returned path lies inside
another returned path. -/
theorem scan_returns_the_outermost_marker_directories (sep : Char) (tree : FsNode)
    (root : String) (hread : tree.readableRoot = true) :
    (findMainAssetsFolders sep tree root).result = .ok (markerDirectories sep tree root) ∧
    (findMainAssetsFolders sep tree root).events = [] ∧
    (∀ p ∈ markerDirectories sep tree root,
      ∃ names node, (names, node) ∈ tree.descendants ∧ node.isDirectory = some true ∧
        names.getLast? = some "main_assets" ∧ "main_assets" ∉ names.dropLast ∧
        p = names.foldl (pathJoin sep) root) ∧
    ((sep = '/' ∨ sep = '\\') →
      (∀ entry ∈ tree.descendants, ∀ s ∈ entry.1, ValidName sep s) →
      ∀ p ∈ markerDirectories sep tree root, ∀ q ∈ markerDirectories sep tree root,
        ∀ extra : List String, extra ≠ [] → (∀ s ∈ extra, ValidName sep s) →
          extra.foldl (pathJoin sep) p ≠ q) := by
  have hscan := (scan_readable sep).1 tree root ⟨[], []⟩ hread
  refine ⟨?_, ?_, ?_, ?_⟩
  · simp [findMainAssetsFolders, hscan, markerDirectories]
  · simp [findMainAssetsFolders, hscan]
  · intro p hp
    exact (mem_markerPaths sep root p _).mp hp
  · intro hsep hvalid p hp q hq extra hextra hvextra heq
    obtain ⟨a, n, ha, _, halast, _, rfl⟩ := (mem_markerPaths sep root p _).mp hp
    obtain ⟨b, m, hb, _, _, hbdrop, rfl⟩ := (mem_markerPaths sep root q _).mp hq
    have hdot := sep_ne_dot hsep
    rw [← List.foldl_append] at heq
    have hva : ∀ s ∈ a ++ extra, ValidName sep s := by
      intro s hs
      rcases List.mem_append.mp hs with h | h
      · exact hvalid _ ha s h
      · exact hvextra s h
    have h1 := resolveSegs_foldl_pathJoin sep "" root (a ++ extra) hdot hva
    have h2 := resolveSegs_foldl_pathJoin sep "" root b hdot (hvalid _ hb)
    rw [heq, h2] at h1
    have hab : b = a ++ extra := List.append_cancel_left h1
    apply hbdrop
    rw [hab, List.dropLast_append_of_ne_nil _ hextra]
    exact List.mem_append_left _ (List.mem_of_getLast?_eq_some halast)

/-- C8 at a concrete tree: a nested `main_assets`, a file named `main_assets` and a bundle
two levels down. -/
theorem scan_returns_the_outermost_marker_directories_witness :
    nestedTree.readableRoot = true ∧
    (findMainAssetsFolders '/' nestedTree "/root").result =
      .ok ["/root/A/main_assets", "/root/B/C/main_assets"] :=
  ⟨by decide,
    (scan_returns_the_outermost_marker_directories '/' nestedTree "/root" (by decide)).1.trans
      (congrArg Except.ok (by decide))⟩

/-- C7, the defect: one entry whose `statSync` fails ends the loop over its parent
directory, so a bundle under a sibling listed after it is not returned (first tree);
listed before it, the same bundle is returned (second tree), and so is the bundle beside a
directory whose listing fails (third tree). The scan itself always returns. -/
theorem stat_failure_hides_later_siblings :
    ((findMainAssetsFolders '/' brokenEntryTree "/root").value? = some [] ∧
      (findMainAssetsFolders '/' brokenEntryTree "/root").events =
        [Event.consoleError "搜索目录失败: /root"]) ∧
    (findMainAssetsFolders '/' brokenEntryLastTree "/root").value? =
      some ["/root/A/main_assets"] ∧
    ((findMainAssetsFolders '/' lockedDirTree "/root").value? = some ["/root/A/main_assets"] ∧
      (findMainAssetsFolders '/' lockedDirTree "/root").events =
        [Event.consoleError "搜索目录失败: /root/locked"]) := by
  decide

/-! ## The thumbnail directory and the thumbnail generator -/

theorem getFilesLoop_readable (env : Env) (dirPath : String) (isDir : String → Bool)
    (names files : List String)
    (hstat : ∀ name ∈ names, env.statSync (pathJoin env.sep dirPath name) = .ok (isDir name)) :
    (getFilesLoop env dirPath names files).result =
      .ok (files ++ names.filter fun name => !isDir name) := by
  induction names generalizing files with
  | nil => simp [getFilesLoop, pure_eq]
  | cons name rest ih =>
    have h1 := hstat name (List.mem_cons_self _ _)
    have ih1 := ih (if (!isDir name) = true then files ++ [name] else files)
      (fun n hn => hstat n (List.mem_cons_of_mem _ hn))
    simp only [getFilesLoop, bind_eq_andThen, h1]
    rw [andThen_ok (m := ask (Except.ok (isDir name))) _ rfl]
    simp only [ask, ih1]
    cases h : isDir name <;> simp [List.filter_cons, h]

theorem payloadFiles_readable (env : Env) (dirPath : String) (isDir : String → Bool)
    (names : List String) (hlist : env.readdirSync dirPath = .ok names)
    (hstat : ∀ name ∈ names, env.statSync (pathJoin env.sep dirPath name) = .ok (isDir name)) :
    payloadFiles env dirPath = names.filter fun name => !isDir name := by
  have hloop := getFilesLoop_readable env dirPath isDir names [] hstat
  unfold payloadFiles getFiles
  simp only [bind_eq_andThen, hlist]
  rw [andThen_ok (m := ask (Except.ok names)) _ rfl]
  simp [Run.value?, Run.tryCatch, ask, hloop]

theorem pathExtname_shape (sep : Char) (file : String) :
    pathExtname sep file = "" ∨ ∃ ext, pathExtname sep file = String.mk ('.' :: ext) := by
  unfold pathExtname
  simp only
  split
  · exact .inl rfl
  · split
    · exact .inl rfl
    · split
      · exact .inl rfl
      · exact .inr ⟨_, rfl⟩

/-- The extension test of `checkThumbnailDirectory`: the extension of the name, in lower
case, is a dot and one of the accepted extensions. -/
theorem isImageFile_iff (sep : Char) (file : String) :
    isImageFile sep file = true ↔
      ∃ ext ∈ ["jpg", "jpeg", "png", "gif", "bmp", "webp"],
        toLowerCase (pathExtname sep file) = "." ++ ext := by
  unfold isImageFile
  simp only [List.contains, List.elem_iff]
  rcases pathExtname_shape sep file with h | ⟨e, h⟩
  · rw [h]
    constructor
    · intro hmem
      revert hmem
      decide
    · rintro ⟨ext, _, hext⟩
      have := congrArg String.data hext
      simp [toLowerCase] at this
  · rw [h]
    have hlow : toLowerCase (String.mk ('.' :: e)) = "." ++ String.mk (e.map Char.toLower) := by
      apply String.ext
      simp [toLowerCase]
    have hsub : substring (toLowerCase (String.mk ('.' :: e))) 1 =
        String.mk (e.map Char.toLower) := by
      rw [hlow]
      apply String.ext
      simp [substring]
    rw [hsub, hlow]
    constructor
    · intro hmem
      exact ⟨_, hmem, rfl⟩
    · rintro ⟨ext, hmem, hext⟩
      have : String.mk (e.map Char.toLower) = ext := by
        apply String.ext
        have := congrArg String.data hext
        simpa using this
      rw [this]
      exact hmem

/-- What `checkThumbnailDirectory` returns when nothing it calls throws. It looks at
`parent(bundlePath)/thumbnail`. If that directory is absent it returns `exists = false`
with an empty file list. If it is present and its listing and the `statSync` of every entry
succeed, it returns `exists = true`, the directory's path, and exactly those of its
non-directory entries that pass the extension test, in listing order. The test lower-cases
the extension and accepts jpg, jpeg, png, gif, bmp and webp. -/
theorem checkThumbnailDirectory_readable (env : Env) (p : String) :
    (env.existsSync (pathJoin env.sep (pathDirname env.sep p) "thumbnail") = false →
      (checkThumbnailDirectory env p).result =
        .ok { exists_ := false, path := none, files := [] }) ∧
    (∀ (names : List String) (isDir : String → Bool),
      env.existsSync (pathJoin env.sep (pathDirname env.sep p) "thumbnail") = true →
      env.readdirSync (pathJoin env.sep (pathDirname env.sep p) "thumbnail") = .ok names →
      (∀ name ∈ names,
        env.statSync (pathJoin env.sep (pathJoin env.sep (pathDirname env.sep p) "thumbnail") name)
          = .ok (isDir name)) →
      (checkThumbnailDirectory env p).result =
        .ok { exists_ := true, path := some (pathJoin env.sep (pathDirname env.sep p) "thumbnail"),
              files := names.filter fun name => !isDir name && isImageFile env.sep name }) ∧
    (∀ file, isImageFile env.sep file = true ↔
      ∃ ext ∈ ["jpg", "jpeg", "png", "gif", "bmp", "webp"],
        toLowerCase (pathExtname env.sep file) = "." ++ ext) := by
  refine ⟨?_, ?_, isImageFile_iff env.sep⟩
  · intro hex
    rw [checkThumbnailDirectory_eq]
    simp [thumbnailDir, hex]
  · intro names isDir hex hlist hstat
    rw [checkThumbnailDirectory_eq, thumbnailDir,
      payloadFiles_readable env _ isDir names hlist hstat]
    simp [hex, List.filter_filter, Bool.and_comm]

set_option maxRecDepth 100000 in
/-- C10, where the code departs from it: the thumbnail directory of bundle `B` exists and
lists the image file `a.png` and an entry `dangling` on which `statSync` throws.
`a.png` is a non-directory entry with an accepted extension, so C10 has it returned. The
code returns `exists = true` with an empty file list and writes `读取文件失败:` to the
console: the `try` block of `getFiles` wraps the whole loop, so one failing `statSync`
loses every file of the directory. Without that entry `a.png` is returned; a directory
whose entries can all be read yields its files with the extensions jpg, jpeg, png, gif,
bmp and webp in any case, in listing order, and neither the directory `dir.jpg` nor
`a.txt` nor a file named `png`; an absent directory yields `exists = false`. -/
theorem stat_failure_empties_the_thumbnail_list :
    (thumbnailDirEnv ["a.png", "dangling"]).existsSync "/root/B/thumbnail" = true ∧
    (thumbnailDirEnv ["a.png", "dangling"]).readdirSync "/root/B/thumbnail" =
      .ok ["a.png", "dangling"] ∧
    (thumbnailDirEnv ["a.png", "dangling"]).statSync "/root/B/thumbnail/a.png" = .ok false ∧
    (thumbnailDirEnv ["a.png", "dangling"]).statSync "/root/B/thumbnail/dangling" =
      .error ⟨"ENOENT: no such file or directory, stat '/root/B/thumbnail/dangling'"⟩ ∧
    isImageFile '/' "a.png" = true ∧
    (checkThumbnailDirectory (thumbnailDirEnv ["a.png", "dangling"]) "/root/B/main_assets").result =
      .ok { exists_ := true, path := some "/root/B/thumbnail", files := [] } ∧
    (checkThumbnailDirectory (thumbnailDirEnv ["a.png", "dangling"]) "/root/B/main_assets").events =
      [Event.consoleError "读取文件失败:"] ∧
    (checkThumbnailDirectory (thumbnailDirEnv ["a.png"]) "/root/B/main_assets").result =
      .ok { exists_ := true, path := some "/root/B/thumbnail", files := ["a.png"] } ∧
    (checkThumbnailDirectory
        (thumbnailDirEnv ["a.jpg", "b.JPEG", "c.png", "notes.txt", "d.gif", "e.bmp", "f.WebP",
          "png", "g.tiff"]) "/root/B/main_assets").result =
      .ok { exists_ := true, path := some "/root/B/thumbnail",
            files := ["a.jpg", "b.JPEG", "c.png", "d.gif", "e.bmp", "f.WebP"] } ∧
    (checkThumbnailDirectory thumbnailEnv "/root/B/main_assets").result =
      .ok { exists_ := true, path := some "/root/B/thumbnail", files := ["a.PNG"] } ∧
    (checkThumbnailDirectory thumbnailEnv "/root/A/main_assets").result =
      .ok { exists_ := false, path := none, files := [] } :=
  ⟨by decide, rfl, rfl, rfl, by decide, congrArg Except.ok (by decide), by decide,
    congrArg Except.ok (by decide), congrArg Except.ok (by decide),
    congrArg Except.ok (by decide), congrArg Except.ok (by decide)⟩

/-- C9, refuted as stated: the process ends with exit status 0 and the output file exists,
but error-stream text was captured; the generator still succeeds. -/
theorem generator_succeeds_with_error_stream_text :
    generatorProcess warningGenerator "/in/a.fbx" "/out/a.png" =
      .ok (.close (some 0) "done" "WARNING: slow shell") ∧
    warningGenerator.existsAfter "/out/a.png" = true ∧
    thumbnailModule warningGenerator "/in/a.fbx" "/out/a.png" "item" = .ok "item" :=
  ⟨rfl, rfl, rfl⟩

/-- C9, amended: the external thumbnail generator succeeds if and only if the source file
exists, the child process closes with exit status zero and the output file exists on disk
afterwards; captured error-stream text does not by itself make it fail. A non-zero exit
status yields a failure whose detail is the captured error-stream text when there is any, and
otherwise a message naming the exit status; a zero exit status with no output file is still
a failure. -/
theorem generator_succeeds_iff_zero_exit_and_output {α : Type} (tenv : ThumbnailEnv)
    (src dest : String) (item : α) :
    (thumbnailModule tenv src dest item = .ok item ↔
      tenv.existsBefore src = true ∧
        (∃ stdout stderr,
          generatorProcess tenv src dest = .ok (.close (some 0) stdout stderr)) ∧
        tenv.existsAfter dest = true) ∧
    (∀ code stdout stderr, tenv.existsBefore src = true →
      generatorProcess tenv src dest = .ok (.close code stdout stderr) → code ≠ some 0 →
      thumbnailModule tenv src dest item =
        .error ⟨"Failed to generate thumbnail: " ++
          (if stderr ≠ "" then stderr
            else "PowerShell script exited with code " ++ codeToString code)⟩) ∧
    (∀ stdout stderr, tenv.existsBefore src = true →
      generatorProcess tenv src dest = .ok (.close (some 0) stdout stderr) →
      tenv.existsAfter dest = false →
      thumbnailModule tenv src dest item = .error ⟨"file thumbnail generate fail."⟩) := by
  unfold thumbnailModule executePowerShellScript generatorProcess
  simp only
  generalize tenv.spawn "pwsh.exe"
    (powerShellArgs (pathResolve tenv.sep tenv.dirname "get_thumbnail.ps1") src dest 400) =
    outcome
  refine ⟨?_, ?_, ?_⟩
  · cases hsrc : tenv.existsBefore src with
    | false => simp
    | true =>
      cases outcome with
      | error e => simp
      | ok o =>
        cases o with
        | error message => simp [optToString]
        | close code stdout stderr =>
          by_cases hcode : code = some 0
          · subst hcode
            cases hdest : tenv.existsAfter dest <;> simp
          · simp [hcode]
  · intro code stdout stderr hsrc hout hcode
    subst hout
    simp [hsrc, hcode, optToString]
  · intro stdout stderr hsrc hout hdest
    subst hout
    simp [hsrc, hdest]

/-- C9, amended, at two concrete generators: one that exits with status 1 and an error
text, and one that exits with status 0 without writing the file. -/
theorem generator_succeeds_iff_zero_exit_and_output_witness :
    thumbnailModule failingGenerator "/in/a.fbx" "/out/a.png" "item" =
      .error ⟨"Failed to generate thumbnail: cannot render"⟩ ∧
    thumbnailModule noOutputGenerator "/in/a.fbx" "/out/a.png" "item" =
      .error ⟨"file thumbnail generate fail."⟩ :=
  ⟨(generator_succeeds_iff_zero_exit_and_output failingGenerator "/in/a.fbx" "/out/a.png"
      "item").2.1 (some 1) "" "cannot render" rfl rfl (by decide),
    (generator_succeeds_iff_zero_exit_and_output noOutputGenerator "/in/a.fbx" "/out/a.png"
      "item").2.2 "" "" rfl rfl rfl⟩

/-! ## A root without bundles -/

/-- Without a directory named `main_assets` below it, the scan adds nothing to its array,
whatever cannot be read. -/
theorem scan_without_marker (sep : Char) :
    (∀ node cur st,
      (∀ entry ∈ node.descendants,
        ¬(entry.2.isDirectory = some true ∧ entry.1.getLast? = some "main_assets")) →
      (searchRecursively sep node cur st).mainAssetsFolders = st.mainAssetsFolders) ∧
    (∀ items cur st,
      (∀ entry ∈ descendantsOfItems items,
        ¬(entry.2.isDirectory = some true ∧ entry.1.getLast? = some "main_assets")) →
      (searchItems sep items cur st).1.mainAssetsFolders = st.mainAssetsFolders) := by
  apply searchRecursively.mutual_induct sep
    (fun node cur st =>
      (∀ entry ∈ node.descendants,
        ¬(entry.2.isDirectory = some true ∧ entry.1.getLast? = some "main_assets")) →
      (searchRecursively sep node cur st).mainAssetsFolders = st.mainAssetsFolders)
    (fun items cur st =>
      (∀ entry ∈ descendantsOfItems items,
        ¬(entry.2.isDirectory = some true ∧ entry.1.getLast? = some "main_assets")) →
      (searchItems sep items cur st).1.mainAssetsFolders = st.mainAssetsFolders)
  · intro d cur st _
    simp [searchRecursively]
  · intro d items cur st st1 hs ih h
    have h2 := ih (fun entry he => h entry (by rw [FsNode.descendants]; exact he))
    rw [hs] at h2
    simp only [searchRecursively, hs]
    exact h2
  · intro d items cur st st1 hs ih h
    have h2 := ih (fun entry he => h entry (by rw [FsNode.descendants]; exact he))
    rw [hs] at h2
    simp only [searchRecursively, hs]
    exact h2
  · intro cur st _
    simp [searchItems]
  · intro item node rest cur st hd _
    simp [searchItems, hd]
  · intro node rest cur st hd _ h
    exact absurd ⟨hd, rfl⟩
      (h (["main_assets"], node) (by rw [descendantsOfItems]; exact List.mem_cons_self _ _))
  · intro item node rest cur st hd hne ih1 ih2 h
    have hnode : ∀ entry ∈ node.descendants,
        ¬(entry.2.isDirectory = some true ∧ entry.1.getLast? = some "main_assets") := by
      intro entry hentry hmark
      have hnil := descendants_names_ne_nil.1 node entry hentry
      apply h (item :: entry.1, entry.2)
      · simp only [descendantsOfItems, List.cons_append, List.mem_cons, List.mem_append,
          List.mem_map]
        exact .inr (.inl ⟨entry, hentry, rfl⟩)
      · refine ⟨hmark.1, ?_⟩
        cases hl : entry.1 with
        | nil => exact absurd hl hnil
        | cons s more =>
          rw [hl] at hmark
          simpa [List.getLast?_cons_cons] using hmark.2
    have hrest : ∀ entry ∈ descendantsOfItems rest,
        ¬(entry.2.isDirectory = some true ∧ entry.1.getLast? = some "main_assets") := by
      intro entry hentry
      apply h entry
      simp only [descendantsOfItems, List.cons_append, List.mem_cons, List.mem_append]
      exact .inr (.inr hentry)
    simp only [searchItems, hd, hne, if_false]
    rw [ih2 hrest, ih1 hnode]
  · intro item node rest cur st hd ih h
    have hrest : ∀ entry ∈ descendantsOfItems rest,
        ¬(entry.2.isDirectory = some true ∧ entry.1.getLast? = some "main_assets") := by
      intro entry hentry
      apply h entry
      simp only [descendantsOfItems, List.cons_append, List.mem_cons, List.mem_append]
      exact .inr (.inr hentry)
    simp only [searchItems, hd]
    exact ih hrest

/-- The whole run of `startBatchImport` when it is free to start and the scan finds
nothing. -/
theorem startBatchImport_nothing_found (env : Env) (g : Globals) (hfree : g.isImporting = false)
    (hsel : g.selectedPath ≠ "") (hroot : env.existsSync g.selectedPath = true)
    (hfound : discoveredBundles env g.selectedPath = []) :
    (startBatchImport env g).result = .ok { g with isImporting := false } ∧
    (startBatchImport env g).events =
      [Event.setDisabled "startImportBtn" true, Event.setDisabled "selectPathBtn" true,
        Event.showStatus "正在搜索main_assets文件夹..." "info", Event.clearLog,
        Event.showProgress]
      ++ scanConsole env g.selectedPath
      ++ [Event.showStatus "未找到任何main_assets文件夹" "error",
          Event.setDisabled "startImportBtn" false, Event.setDisabled "selectPathBtn" false,
          Event.hideProgress] := by
  have hbody : (startBatchImportBody env g.selectedPath).result = .ok () ∧
      (startBatchImportBody env g.selectedPath).events =
        [Event.showStatus "正在搜索main_assets文件夹..." "info", Event.clearLog,
          Event.showProgress]
        ++ scanConsole env g.selectedPath
        ++ [Event.showStatus "未找到任何main_assets文件夹" "error"] := by
    unfold startBatchImportBody
    simp only [bind_eq_andThen]
    rw [andThen_ok (m := showStatus _ _) _ rfl, andThen_ok (m := emit _) _ rfl,
      andThen_ok (m := emit _) _ rfl,
      andThen_ok (m := findMainAssetsFolders _ _ _) (a := discoveredBundles env g.selectedPath)
        _ rfl]
    simp [hfound, showStatus, emit, findMainAssetsFolders, scanConsole]
  obtain ⟨b1, b2⟩ := hbody
  unfold startBatchImport
  simp only [hfree, hsel, checkPathExists, hroot, Bool.false_eq_true, if_false, Bool.not_true,
    bind_eq_andThen]
  rw [andThen_ok (m := emit _) _ rfl, andThen_ok (m := emit _) _ rfl, tryCatch_ok _ b1]
  simp [Run.tryFinally, andThen, emit, pure_eq, b1, b2]

/-- C11: for every existing root whose tree holds no directory named `main_assets`,
`findMainAssetsFolders` returns the empty sequence, and a `startBatchImport` that is free
to start reports the terminal status `未找到任何main_assets文件夹`, makes no call to
`importMainAssetsFolder` or to the host's `addFromPath` (its effects are the buttons, the
status lines, the progress panel and the console lines of the scan, nothing else), and
leaves the busy flag `isImporting` false when it returns. -/
theorem root_without_bundles_has_nothing_to_do (env : Env) (g : Globals)
    (hfree : g.isImporting = false) (hsel : g.selectedPath ≠ "")
    (hroot : env.existsSync g.selectedPath = true)
    (hnone : ∀ entry ∈ env.tree.descendants,
      ¬(entry.2.isDirectory = some true ∧ entry.1.getLast? = some "main_assets")) :
    (findMainAssetsFolders env.sep env.tree g.selectedPath).result = .ok [] ∧
    (startBatchImport env g).result = .ok { g with isImporting := false } ∧
    (startBatchImport env g).events =
      [Event.setDisabled "startImportBtn" true, Event.setDisabled "selectPathBtn" true,
        Event.showStatus "正在搜索main_assets文件夹..." "info", Event.clearLog,
        Event.showProgress]
      ++ scanConsole env g.selectedPath
      ++ [Event.showStatus "未找到任何main_assets文件夹" "error",
          Event.setDisabled "startImportBtn" false, Event.setDisabled "selectPathBtn" false,
          Event.hideProgress] ∧
    (∀ e ∈ (startBatchImport env g).events,
      (∀ message type, e ≠ Event.addLog message type) ∧
      (∀ path name tags folders, e ≠ Event.addFromPath path name tags folders) ∧
      (∀ current total, e ≠ Event.updateProgress current total) ∧
      (∀ command, e ≠ Event.exec command)) := by
  have hscan : discoveredBundles env g.selectedPath = [] :=
    (scan_without_marker env.sep).1 env.tree g.selectedPath ⟨[], []⟩ hnone
  obtain ⟨hres, hev⟩ := startBatchImport_nothing_found env g hfree hsel hroot hscan
  have hconsole := (scan_console env.sep).1 env.tree g.selectedPath ⟨[], []⟩ (by simp)
  refine ⟨?_, hres, hev, ?_⟩
  · have : (findMainAssetsFolders env.sep env.tree g.selectedPath).result =
        .ok (discoveredBundles env g.selectedPath) := rfl
    rw [this, hscan]
  · intro e he
    rw [hev] at he
    simp only [List.mem_append, List.mem_cons, List.mem_singleton, List.not_mem_nil,
      or_false] at he
    rcases he with (he | he) | he
    · rcases he with h | h | h | h | h <;> subst h <;> simp
    · obtain ⟨m, hm⟩ := hconsole e he
      subst hm
      simp
    · rcases he with h | h | h | h <;> subst h <;> simp

set_option maxRecDepth 100000 in
/-- C11 at a concrete root: a directory with a file, a file named `main_assets`, and a
directory that cannot be listed. -/
theorem root_without_bundles_has_nothing_to_do_witness :
    (findMainAssetsFolders noBundleEnv.sep noBundleEnv.tree "/root").result = .ok [] ∧
    (startBatchImport noBundleEnv rootSelected).result =
      .ok { selectedPath := "/root", isImporting := false } ∧
    (startBatchImport noBundleEnv rootSelected).events =
      [Event.setDisabled "startImportBtn" true, Event.setDisabled "selectPathBtn" true,
        Event.showStatus "正在搜索main_assets文件夹..." "info", Event.clearLog,
        Event.showProgress, Event.consoleError "搜索目录失败: /root/locked",
        Event.showStatus "未找到任何main_assets文件夹" "error",
        Event.setDisabled "startImportBtn" false, Event.setDisabled "selectPathBtn" false,
        Event.hideProgress] :=
  have h := root_without_bundles_has_nothing_to_do noBundleEnv rootSelected rfl (by decide)
    (by decide) (by decide)
  ⟨h.1, h.2.1, h.2.2.1.trans (by decide)⟩

end AssetManager
